import Mathlib

/-!
Verification development for the `thought_to_table` repository
(`recipe_cli.py`, `main.py`, `anthro_test.py`).

Strings are modelled as `List Char`.  Python exceptions are modelled as
`Except` values.  External libraries (`requests`, `json`, selenium, the
Anthropic client) are modelled from their documented behaviour at the
exact call sites the source uses; everything else is translated directly
from the Python source.
-/

namespace ThoughtToTable

/-- Whitespace characters recognised by JSON (RFC 8259), as skipped by
Python's `json.loads` between tokens. -/
def isJsonWs (c : Char) : Bool :=
  c == ' ' || c == '\t' || c == '\n' || c == '\r'

/-- ASCII whitespace stripped by Python `str.strip()`: space, tab, newline,
carriage return, vertical tab (0x0b) and form feed (0x0c).  `str.strip()`
also strips some non-ASCII Unicode spaces; those never matter here because
every theorem below either works on concrete ASCII data or hypothesises a
valid JSON document, whose boundary characters are JSON whitespace. -/
def isPyWs (c : Char) : Bool :=
  isJsonWs c || c == Char.ofNat 11 || c == Char.ofNat 12

/-- Python's substring test `pat in text`. -/
def occursB (pat : List Char) : List Char → Bool
  | [] => pat.isEmpty
  | c :: rest => pat.isPrefixOf (c :: rest) || occursB pat rest

/-- Strip `p`-characters from the right end (helper for `str.strip()`). -/
def rstripBy (p : Char → Bool) (l : List Char) : List Char :=
  (l.reverse.dropWhile p).reverse

/-- Python `text.strip()` (over the ASCII whitespace set, see `isPyWs`). -/
def pyStrip (l : List Char) : List Char :=
  (rstripBy isPyWs l).dropWhile isPyWs

/-- Python `"\n".join(text.split("\n")[1:])` — everything after the first
newline, or the empty string when there is none (recipe_cli.py line 52). -/
def dropFirstLine (l : List Char) : List Char :=
  (l.dropWhile (fun c => !(c == '\n'))).drop 1

/-- Python `text.split("\n", 1)[1]` (main.py line 76); `none` models the
`IndexError` raised when the text contains no newline. -/
def splitOffFirstLine (l : List Char) : Option (List Char) :=
  if l.any (fun c => c == '\n') then some (dropFirstLine l) else none

/-- Python `text.rsplit(pat, 1)[0]` — the part of `text` before the last
occurrence of `pat` (all of `text` when `pat` does not occur). -/
def rsplitBefore (pat : List Char) : List Char → List Char
  | [] => []
  | c :: rest =>
    if occursB pat rest then c :: rsplitBefore pat rest
    else if pat.isPrefixOf (c :: rest) then []
    else c :: rsplitBefore pat rest

/-- Python `text.endswith(pat)`. -/
def endsWithB (l pat : List Char) : Bool :=
  pat.reverse.isPrefixOf l.reverse

/-- Python `text[:-n]` (for `n ≤ len(text)`; shorter texts give `""`,
matching Python). -/
def pySliceDropRight (n : Nat) (l : List Char) : List Char :=
  l.take (l.length - n)

/-- The markdown fence marker. -/
def fence : List Char := "```".toList

/-! ## A model of Python's `json` module

`Json` values keep enough structure for the claims: strings keep their raw
(still escaped) character content and numbers keep their lexeme; no claim
depends on escape decoding or numeric semantics, only on whether parsing
succeeds and on equality of values parsed from equal strings. -/

inductive Json where
  | null : Json
  | bool (b : Bool) : Json
  | str (s : List Char) : Json
  | num (lexeme : List Char) : Json
  | arr (elems : List Json) : Json
  | obj (members : List (List Char × Json)) : Json

def lbraceC : Char := Char.ofNat 123
def rbraceC : Char := Char.ofNat 125

def skipJsonWs (l : List Char) : List Char := l.dropWhile isJsonWs

def isHexDigitB (c : Char) : Bool :=
  c.isDigit || (97 ≤ c.toNat && c.toNat ≤ 102) || (65 ≤ c.toNat && c.toNat ≤ 70)

/-- Body of a JSON string (opening quote already consumed): returns the raw
content and the rest of the input after the closing quote.  Implements the
strict `json.loads` rules: only the listed escapes, `\uXXXX` needs four hex
digits, and unescaped control characters are rejected. -/
def parseStringBody : Nat → List Char → Option (List Char × List Char)
  | 0, _ => none
  | _, [] => none
  | f + 1, c :: rest =>
    if c == '"' then some ([], rest)
    else if c == '\\' then
      match rest with
      | [] => none
      | e :: rest2 =>
        if e == 'u' then
          match rest2 with
          | h1 :: h2 :: h3 :: h4 :: rest3 =>
            if isHexDigitB h1 && isHexDigitB h2 && isHexDigitB h3 && isHexDigitB h4 then
              match parseStringBody f rest3 with
              | some (s, r) => some (c :: e :: h1 :: h2 :: h3 :: h4 :: s, r)
              | none => none
            else none
          | _ => none
        else if e == '"' || e == '\\' || e == '/' || e == 'b' || e == 'f'
            || e == 'n' || e == 'r' || e == 't' then
          match parseStringBody f rest2 with
          | some (s, r) => some (c :: e :: s, r)
          | none => none
        else none
    else if c.toNat < 32 then none
    else
      match parseStringBody f rest with
      | some (s, r) => some (c :: s, r)
      | none => none

def takeDigits (l : List Char) : List Char × List Char :=
  (l.takeWhile Char.isDigit, l.dropWhile Char.isDigit)

/-- Integer part of a JSON number: `0`, or a nonzero digit followed by
digits (leading zeros rejected, as in `json.loads`). -/
def parseIntPart : List Char → Option (List Char × List Char)
  | [] => none
  | c :: rest =>
    if c == '0' then some (['0'], rest)
    else if c.isDigit then
      let (ds, r) := takeDigits rest
      some (c :: ds, r)
    else none

/-- Optional fraction part `.digits`. -/
def parseFracPart (l : List Char) : Option (List Char × List Char) :=
  match l with
  | '.' :: rest =>
    let (ds, r) := takeDigits rest
    if ds.isEmpty then none else some ('.' :: ds, r)
  | _ => some ([], l)

/-- Optional exponent part `e[+-]digits`. -/
def parseExpPart (l : List Char) : Option (List Char × List Char) :=
  match l with
  | c :: rest =>
    if c == 'e' || c == 'E' then
      match rest with
      | s :: rest2 =>
        if s == '+' || s == '-' then
          let (ds, r) := takeDigits rest2
          if ds.isEmpty then none else some (c :: s :: ds, r)
        else
          let (ds, r) := takeDigits rest
          if ds.isEmpty then none else some (c :: ds, r)
      | [] => none
    else some ([], c :: rest)
  | [] => some ([], [])

def parseNumberNoSign (l : List Char) : Option (List Char × List Char) :=
  match parseIntPart l with
  | none => none
  | some (i, r1) =>
    match parseFracPart r1 with
    | none => none
    | some (fr, r2) =>
      match parseExpPart r2 with
      | none => none
      | some (ex, r3) => some (i ++ fr ++ ex, r3)

def parseNumber (l : List Char) : Option (List Char × List Char) :=
  match l with
  | '-' :: rest =>
    match parseNumberNoSign rest with
    | some (x, r) => some ('-' :: x, r)
    | none => none
  | _ => parseNumberNoSign l

mutual

/-- JSON value parser (leading whitespace already skipped). -/
def parseValue : Nat → List Char → Option (Json × List Char)
  | 0, _ => none
  | f + 1, l =>
    match l with
    | [] => none
    | c :: rest =>
      if c == '"' then
        match parseStringBody (rest.length + 1) rest with
        | some (s, r) => some (Json.str s, r)
        | none => none
      else if c == lbraceC then
        match skipJsonWs rest with
        | [] => none
        | d :: r2 =>
          if d == rbraceC then some (Json.obj [], r2)
          else
            match parseMembers f (d :: r2) with
            | some (ms, r) => some (Json.obj ms, r)
            | none => none
      else if c == '[' then
        match skipJsonWs rest with
        | [] => none
        | d :: r2 =>
          if d == ']' then some (Json.arr [], r2)
          else
            match parseElems f (d :: r2) with
            | some (es, r) => some (Json.arr es, r)
            | none => none
      else if c == 't' then
        if "rue".toList.isPrefixOf rest then some (Json.bool true, rest.drop 3) else none
      else if c == 'f' then
        if "alse".toList.isPrefixOf rest then some (Json.bool false, rest.drop 4) else none
      else if c == 'n' then
        if "ull".toList.isPrefixOf rest then some (Json.null, rest.drop 3) else none
      else
        match parseNumber (c :: rest) with
        | some (x, r) => some (Json.num x, r)
        | none => none

/-- One or more `"key": value` members followed by `,` or the closing brace. -/
def parseMembers : Nat → List Char → Option (List (List Char × Json) × List Char)
  | 0, _ => none
  | f + 1, l =>
    match l with
    | [] => none
    | c :: rest =>
      if c == '"' then
        match parseStringBody (rest.length + 1) rest with
        | none => none
        | some (k, r1) =>
          match skipJsonWs r1 with
          | ':' :: r2 =>
            match parseValue f (skipJsonWs r2) with
            | none => none
            | some (v, r3) =>
              match skipJsonWs r3 with
              | ',' :: r4 =>
                match parseMembers f (skipJsonWs r4) with
                | some (ms, r5) => some ((k, v) :: ms, r5)
                | none => none
              | d :: r4 =>
                if d == rbraceC then some ([(k, v)], r4) else none
              | [] => none
          | _ => none
      else none

/-- One or more array elements followed by `,` or `]`. -/
def parseElems : Nat → List Char → Option (List Json × List Char)
  | 0, _ => none
  | f + 1, l =>
    match parseValue f l with
    | none => none
    | some (v, r1) =>
      match skipJsonWs r1 with
      | ',' :: r2 =>
        match parseElems f (skipJsonWs r2) with
        | some (es, r3) => some (v :: es, r3)
        | none => none
      | ']' :: r2 => some ([v], r2)
      | _ => none

end

/-- Strict top-level JSON parse: leading/trailing JSON whitespace allowed,
anything else after the value is an error ("Extra data"). -/
def jparse (l : List Char) : Option Json :=
  match parseValue (2 * l.length + 2) (skipJsonWs l) with
  | some (v, rest) => if (skipJsonWs rest).isEmpty then some v else none
  | none => none

/-- The boundary characters of `l` that `str.strip()` would remove are
exactly the ones `json.loads` would skip. -/
def boundaryOk (l : List Char) : Bool :=
  (l.dropWhile isPyWs == l.dropWhile isJsonWs) &&
  (l.reverse.dropWhile isPyWs == l.reverse.dropWhile isJsonWs)

/-- Model of Python `json.loads`.  When the document's boundary whitespace
is JSON whitespace (the only case in which `json.loads` succeeds at all —
any other boundary character makes the value parse or the trailing
"Extra data" check fail), parsing agrees with parsing the stripped string;
otherwise the parse fails exactly as `json.loads` does. -/
def json_loads (l : List Char) : Option Json :=
  if boundaryOk l then jparse (pyStrip l) else none

/-! ## The two response cleaners (Structured LLM Client) -/

/-- `recipe_cli.call_claude` response cleaning (lines 50–56), composed with
the final `.strip()` that feeds `json.loads`. -/
def clean_cli (text : List Char) : List Char :=
  pyStrip
    (if fence.isPrefixOf (pyStrip text) then
      (if occursB fence (dropFirstLine (pyStrip text)) then
        rsplitBefore fence (dropFirstLine (pyStrip text))
      else dropFirstLine (pyStrip text))
    else pyStrip text)

/-- `recipe_cli.call_claude`, from response text to parsed JSON. -/
def call_claude_text (text : List Char) : Option Json :=
  json_loads (clean_cli text)

/-- `main.RecipeAssistant._call_claude` response cleaning (lines 72–82),
composed with the final `.strip()`; `none` models the `IndexError` raised
by `text.split("\n", 1)[1]` when a fenced text has no newline. -/
def clean_main (text : List Char) : Option (List Char) :=
  if fence.isPrefixOf text then
    match splitOffFirstLine text with
    | none => none
    | some t =>
      if endsWithB t fence then some (pyStrip (pySliceDropRight 3 t))
      else if occursB fence t then some (pyStrip (rsplitBefore fence t))
      else some (pyStrip t)
  else some (pyStrip text)

/-- `main.RecipeAssistant._call_claude`, from response text to parsed JSON
(`none` covers both the `IndexError` and a `JSONDecodeError`). -/
def call_claude_main_text (text : List Char) : Option Json :=
  (clean_main text).bind json_loads

/-! ## recipe_cli.py embedding -/

/-- The Python exception classes distinguished by process_recipe's
handlers, each carrying its `str(e)` rendering. -/
inductive PyExc where
  | reqExc (msg : List Char)
  | jsonDecodeErr (msg : List Char)
  | otherExc (msg : List Char)

/-- Stand-in for the message of the AttributeError raised by calling
`.get` on a non-dict value. -/
def attrErrMsg : List Char := "object has no attribute get".toList

structure CliHttpResponse where
  status : Nat
  text : List Char

/-- Environment of one `process_recipe` run: the API key lookup, the HTTP
fetch outcome (with the page's soup-extracted text on success), and the
raw text of each model response (error = an API exception). -/
structure CliEnv where
  apiKey : Option (List Char)
  fetch : Except (List Char) CliHttpResponse
  claudeResp1 : Except (List Char) (List Char)
  claudeResp2 : Except (List Char) (List Char)

/-- recipe_cli.extract_recipe_text (lines 28–39): `requests.get`, then
`raise_for_status()` — which raises `requests.HTTPError` exactly for
status codes 400–599 — then BeautifulSoup text extraction (carried by the
environment as `text`). -/
def extract_recipe_text (env : CliEnv) : Except PyExc (List Char) :=
  match env.fetch with
  | .error m => .error (.reqExc m)
  | .ok r =>
    if 400 ≤ r.status ∧ r.status < 600 then .error (.reqExc ("HTTPError".toList))
    else .ok r.text

/-- recipe_cli.call_claude (lines 42–56) on one environment-given model
response: an API exception propagates as a plain Exception, otherwise the
text is fence-cleaned and parsed, raising JSONDecodeError on failure. -/
def call_claude (resp : Except (List Char) (List Char)) : Except PyExc Json :=
  match resp with
  | .error m => .error (.otherExc m)
  | .ok text =>
    match call_claude_text text with
    | some j => .ok j
    | none => .error (.jsonDecodeErr ("Expecting value".toList))

/-- Dict lookup for parsed JSON objects: with duplicate keys the last
occurrence wins, as in the dict `json.loads` builds. -/
def jLookup (kvs : List (List Char × Json)) (k : List Char) : Option Json :=
  match kvs.reverse.find? (fun p => p.1 == k) with
  | some p => some p.2
  | none => none

/-- Python `j.get(k, d)`: AttributeError when `j` is not a dict. -/
def jget (j : Json) (k : List Char) (d : Json) : Except PyExc Json :=
  match j with
  | .obj kvs => .ok ((jLookup kvs k).getD d)
  | _ => .error (.otherExc attrErrMsg)

/-- Python `len(x)` on a JSON value (`none` = TypeError). -/
def pyLen : Json → Option Nat
  | .arr l => some l.length
  | .obj kvs => some kvs.length
  | .str s => some s.length
  | _ => none

/-- Python iteration over a JSON value: lists yield elements, dicts their
keys, strings their characters; other values raise TypeError. -/
def iterElems : Json → Option (List Json)
  | .arr l => some l
  | .obj kvs => some (kvs.map (fun p => Json.str p.1))
  | .str s => some (s.map (fun c => Json.str [c]))
  | _ => none

/-- Python float formatting `f"{x:.2f}"` succeeds exactly on numbers and
booleans. -/
def canFloatFormat : Json → Bool
  | .num _ => true
  | .bool _ => true
  | _ => false

/-- Python truthiness of a JSON value; a number is falsy exactly when its
mantissa (the part before any exponent) has no nonzero digit. -/
def jTruthy : Json → Bool
  | .null => false
  | .bool b => b
  | .num s => (s.takeWhile (fun c => !(c == 'e') && !(c == 'E'))).any
      (fun c => decide ('1' ≤ c ∧ c ≤ '9'))
  | .str s => !s.isEmpty
  | .arr l => !l.isEmpty
  | .obj kvs => !kvs.isEmpty

/-- The success dict returned by process_recipe (lines 114–123). -/
structure CliSuccess where
  url : List Char
  recipe_name : Json
  original_servings : Json
  scaled_servings : Int
  shopping_list : Json
  estimated_cost : Json
  storage_tips : Json

/-- The two shapes of dict process_recipe can return. -/
inductive CliResult where
  | ok (fields : CliSuccess)
  | fail (error : List Char)

/-- The `success` entry of the returned dict. -/
def CliResult.success : CliResult → Bool
  | .ok _ => true
  | .fail _ => false

/-- The exception handlers of process_recipe (lines 125–130), in source
order: RequestException, then JSONDecodeError, then Exception. -/
def cliHandle : PyExc → CliResult
  | .reqExc m => .fail ("Failed to fetch recipe: ".toList ++ m)
  | .jsonDecodeErr m => .fail ("Failed to parse Claude response: ".toList ++ m)
  | .otherExc m => .fail m

/-- One run of process_recipe, together with how many times it fetched the
URL and how many model calls it performed. -/
structure CliRun where
  result : CliResult
  fetchCalls : Nat
  claudeCalls : Nat

/-- The success-dict assembly (lines 114–123); each `.get` can raise. -/
def assembleSuccess (url : List Char) (servings : Int) (parsed scaled : Json) :
    Except PyExc CliSuccess := do
  let innerName ← jget parsed ("recipe_name".toList) (Json.str ("Recipe".toList))
  let rname ← jget scaled ("recipe_name".toList) innerName
  let oserv ← jget parsed ("original_servings".toList) (Json.num ("4".toList))
  let slist ← jget scaled ("shopping_list".toList) (Json.arr [])
  let cost ← jget scaled ("estimated_total_cost".toList) (Json.num ("0".toList))
  let tips ← jget scaled ("storage_tips".toList) (Json.obj [])
  pure { url := url, recipe_name := rname, original_servings := oserv,
         scaled_servings := servings, shopping_list := slist,
         estimated_cost := cost, storage_tips := tips }

/-- The `if not api_key` guard (line 74): true when the variable is unset
or empty. -/
def apiKeyMissing (env : CliEnv) : Bool :=
  match env.apiKey with
  | none => true
  | some k => k.isEmpty

/-- recipe_cli.process_recipe (lines 59–130).  The API-key check and the
client construction happen before the `try`; every exception raised inside
the `try` is routed through `cliHandle`, so the function always returns a
dict.  Building the scale prompt (line 99) reads
`parsed.get('original_servings', 4)` between the two model calls. -/
def process_recipe (url : List Char) (servings : Int) (env : CliEnv) : CliRun :=
  if apiKeyMissing env then
    { result := .fail ("ANTHROPIC_API_KEY not set".toList), fetchCalls := 0, claudeCalls := 0 }
  else
    match extract_recipe_text env with
    | .error e => { result := cliHandle e, fetchCalls := 1, claudeCalls := 0 }
    | .ok _recipeText =>
      match call_claude env.claudeResp1 with
      | .error e => { result := cliHandle e, fetchCalls := 1, claudeCalls := 1 }
      | .ok parsed =>
        match jget parsed ("original_servings".toList) (Json.num ("4".toList)) with
        | .error e => { result := cliHandle e, fetchCalls := 1, claudeCalls := 1 }
        | .ok _ =>
          match call_claude env.claudeResp2 with
          | .error e => { result := cliHandle e, fetchCalls := 1, claudeCalls := 2 }
          | .ok scaled =>
            match assembleSuccess url servings parsed scaled with
            | .error e => { result := cliHandle e, fetchCalls := 1, claudeCalls := 2 }
            | .ok s => { result := .ok s, fetchCalls := 1, claudeCalls := 2 }

/-- One iteration of format_for_chat's shopping-list loop (lines 145–152):
`item.get` raises AttributeError on a non-dict item, and a truthy
`estimated_price` is formatted with `f"{price:.2f}"`, which raises on a
non-numeric value (a falsy price skips the format). -/
def chatItem (item : Json) : Option Unit :=
  match item with
  | .obj kvs =>
    if jTruthy ((jLookup kvs ("estimated_price".toList)).getD (Json.num ['0'])) then
      if canFloatFormat ((jLookup kvs ("estimated_price".toList)).getD (Json.num ['0'])) then
        some ()
      else none
    else some ()
  | _ => none

/-- The shopping-list loop of format_for_chat: the first raising item
aborts the whole call. -/
def chatLoop : List Json → Option Unit
  | [] => some ()
  | item :: rest =>
    match chatItem item with
    | some _ => chatLoop rest
    | none => none

/-- format_for_chat (lines 133–163), reduced to whether it completes
(`some ()`) or raises (`none`); the text it builds is not observed by any
claim.  A failure dict returns the error line at once.  On a success dict
it iterates `shopping_list` (TypeError when the value is not iterable,
then the per-item loop), formats `estimated_cost` with `:.2f` (ValueError
or TypeError on a non-numeric value), and calls `.items()` on
`storage_tips` when that value is truthy (AttributeError on a truthy
non-dict). -/
def format_for_chat (res : CliResult) : Option Unit :=
  match res with
  | .fail _ => some ()
  | .ok f =>
    match iterElems f.shopping_list with
    | none => none
    | some items =>
      match chatLoop items with
      | none => none
      | some _ =>
        if canFloatFormat f.estimated_cost then
          if jTruthy f.storage_tips then
            match f.storage_tips with
            | .obj _ => some ()
            | _ => none
          else some ()
        else none

/-- Python `str.isdigit` over ASCII decimal strings. -/
def pyIsDigitStr (s : List Char) : Bool := !s.isEmpty && s.all Char.isDigit

def digitsToNat (s : List Char) : Nat := s.foldl (fun a c => 10 * a + (c.toNat - 48)) 0

/-- `int(sys.argv[2]) if len(sys.argv) > 2 and sys.argv[2].isdigit() else 7`
(line 174). -/
def cliServings (argv : List (List Char)) : Int :=
  match argv.get? 2 with
  | some a => if pyIsDigitStr a then (digitsToNat a : Int) else 7
  | none => 7

/-- recipe_cli.main (lines 166–188) reduced to its observable process exit
code; `argv` is `sys.argv` including the program name.  On the help/usage
branch the code runs `sys.exit(0 if '--help' in sys.argv else 1)`.  On the
run branch the result is printed: with `--chat` anywhere in the arguments
`format_for_chat` runs, and an exception it raises escapes `main`, ending
the process with exit code 1; otherwise `json.dumps` of the result is
printed — which cannot raise on these dicts — and `main` falls off the
end, exit code 0. -/
def cli_main (argv : List (List Char)) (env : CliEnv) : Nat :=
  if argv.length < 2 ∨ argv.get? 1 = some ("-h".toList) ∨ argv.get? 1 = some ("--help".toList) then
    if argv.contains ("--help".toList) then 0 else 1
  else
    if argv.contains ("--chat".toList) then
      match format_for_chat (process_recipe (argv.getD 1 []) (cliServings argv) env).result with
      | some _ => 0
      | none => 1
    else 0

/-! ## main.py embedding -/

/-- Python `str.lower` (ASCII). -/
def pyLower (l : List Char) : List Char := l.map Char.toLower

/-- An ingredient dict with string-valued (or absent) fields, as produced
by the parsing/scaling stages. -/
structure Ingredient where
  name : Option (List Char)
  amount : Option (List Char)
  unit : Option (List Char)
  category : Option (List Char)
  notes : Option (List Char)

/-- The per-category negative keyword lists (main.py lines 334–338). -/
def invalid_keywords (category : List Char) : Option (List (List Char)) :=
  if category = "produce".toList then
    some ["seeds".toList, "plant".toList, "garden".toList, "growing".toList]
  else if category = "dairy".toList then
    some ["chips".toList, "snacks".toList, "artificial".toList]
  else if category = "meat".toList then
    some ["pet".toList, "dog".toList, "cat".toList, "toy".toList]
  else none

/-- main.RecipeAssistant.is_valid_product (lines 329–347). -/
def is_valid_product (product_name : List Char) (ingredient : Ingredient) : Bool :=
  let category := pyLower (ingredient.category.getD [])
  let name := pyLower (ingredient.name.getD [])
  let keywordsPass :=
    match invalid_keywords category with
    | some kws => !(kws.any (fun kw => occursB kw (pyLower product_name)))
    | none => true
  if !keywordsPass then false
  else if !name.isEmpty && !(occursB name (pyLower product_name)) then false
  else true

/-- The observable behaviour of the browser/selector layer during one
product search: the lazily-launched driver state on entry, whether
navigation and the result-container wait succeed, what each
`find_element(selector).text` yields (`none` = the call raised), and what
the two link-extraction attempts yield. -/
structure BrowserBehavior where
  driverAlready : Bool
  launchOk : Bool
  navOk : Bool
  containerFound : Bool
  css : List Char → Option (List Char)
  primaryHref : Option (Option (List Char))
  anchorsOk : Bool
  anchors : List (Option (List Char))

def name_selectors : List (List Char) :=
  ["span[data-automation-id='product-title']".toList, "span.normal".toList,
   "span.f6".toList]

def price_selectors : List (List Char) :=
  ["[data-automation-id='product-price']".toList, "div.price-main".toList,
   "span.price".toList]

/-- The name-selector loop (main.py lines 261–267): the assignment happens
before the validity check, so an invalid extraction still overwrites the
previous value, and a raising selector leaves it unchanged. -/
def nameLoop (ing : Ingredient) (css : List Char → Option (List Char)) :
    Option (List Char) → List (List Char) → Option (List Char)
  | acc, [] => acc
  | acc, sel :: rest =>
    match css sel with
    | none => nameLoop ing css acc rest
    | some t => if is_valid_product t ing then some t else nameLoop ing css (some t) rest

/-- The price-selector loop (lines 288–294): the first truthy text wins. -/
def priceLoop (css : List Char → Option (List Char)) :
    Option (List Char) → List (List Char) → Option (List Char)
  | acc, [] => acc
  | acc, sel :: rest =>
    match css sel with
    | none => priceLoop css acc rest
    | some t => if t.isEmpty then priceLoop css (some t) rest else some t

def ipMarker : List Char := "/ip/".toList

/-- The anchor fallback scan (lines 274–279): the first anchor whose href
is truthy and contains the product-path marker. -/
def anchorScan : List (Option (List Char)) → Option (List Char)
  | [] => none
  | some h :: rest => if !h.isEmpty && occursB ipMarker h then some h else anchorScan rest
  | none :: rest => anchorScan rest

/-- Python `x or sentinel` on an optional string: None and "" are falsy. -/
def orSentinel (x : Option (List Char)) (s : List Char) : List Char :=
  match x with
  | some t => if t.isEmpty then s else t
  | none => s

structure ProductInfo where
  name : List Char
  url : List Char
  price : List Char
  quantity_needed : List Char

structure ProductMatch where
  ingredient : Ingredient
  product : ProductInfo

/-- The f-string `f"{ingredient.get('amount', '')} {ingredient.get('unit', '')}"`. -/
def quantityNeeded (ing : Ingredient) : List Char :=
  (ing.amount.getD []) ++ " ".toList ++ (ing.unit.getD [])

/-- The except-branch result (lines 313–321). -/
def searchFailedMatch (ing : Ingredient) : ProductMatch :=
  { ingredient := ing,
    product := { name := "Search failed".toList, url := "URL not found".toList,
                 price := "Price not found".toList,
                 quantity_needed := quantityNeeded ing } }

/-- The category-keyed search query (lines 231–240). -/
def searchQuery (ing : Ingredient) : List Char :=
  let category := pyLower (ing.category.getD [])
  let name := ing.name.getD []
  if category = "produce".toList then "fresh ".toList ++ name
  else if category = "dairy".toList then "dairy ".toList ++ name
  else if category = "meat".toList then "fresh ".toList ++ name
  else if category = "spices".toList then name ++ " spice".toList
  else name

/-- The two-step URL extraction (lines 269–281): the primary selector's
href when `find_element` does not raise (including a None href), otherwise
the anchor fallback scan guarded by its own try/except. -/
def primaryOrFallback (b : BrowserBehavior) : Option (List Char) :=
  match b.primaryHref with
  | some h => h
  | none => if b.anchorsOk then anchorScan b.anchors else none

/-- main.RecipeAssistant.search_walmart_product (lines 223–321).
`self._ensure_browser()` runs before the `try`: when no driver exists yet
and the launch raises, the exception escapes the component
(`Except.error`).  Inside the `try`, a failed navigation or container wait
falls to the except branch, and the extraction loops funnel missing pieces
into sentinel strings. -/
def search_walmart_product (ing : Ingredient) (b : BrowserBehavior) :
    Except Unit ProductMatch :=
  if !b.driverAlready && !b.launchOk then .error ()
  else
    let _query := searchQuery ing
    if !b.navOk || !b.containerFound then .ok (searchFailedMatch ing)
    else
      .ok { ingredient := ing,
            product := { name := orSentinel (nameLoop ing b.css none name_selectors)
                           ("Name not found".toList),
                         url := orSentinel (primaryOrFallback b) ("URL not found".toList),
                         price := orSentinel (priceLoop b.css none price_selectors)
                           ("Price not found".toList),
                         quantity_needed := quantityNeeded ing } }

/-- Environment of one `process_recipe_url` run. -/
structure MainEnv where
  fetchText : Except (List Char) (List Char)
  parseResp : Except (List Char) (List Char)
  scaleResp : Except (List Char) (List Char)
  launchOk : Bool
  matchBehavior : Nat → BrowserBehavior

/-- parse_recipe_with_claude (lines 84–114): any failure of the model call
(API error, IndexError in the cleaner, JSONDecodeError) is caught and
replaced by the fallback dict `{"ingredients": [], "servings": 0}`. -/
def parse_recipe_with_claude (resp : Except (List Char) (List Char)) : Json :=
  let fallback := Json.obj [("ingredients".toList, Json.arr []),
                            ("servings".toList, Json.num ("0".toList))]
  match resp with
  | .error _ => fallback
  | .ok text =>
    match call_claude_main_text text with
    | some j => j
    | none => fallback

/-- scale_recipe (lines 196–221): no handler — failures propagate. -/
def scale_recipe (resp : Except (List Char) (List Char)) : Except (List Char) Json :=
  match resp with
  | .error m => .error m
  | .ok text =>
    match call_claude_main_text text with
    | some j => .ok j
    | none => .error ("JSONDecodeError".toList)

/-- Read an optional string field of an ingredient dict. -/
def optStrField (kvs : List (List Char × Json)) (k : List Char) : Option (Option (List Char)) :=
  match jLookup kvs k with
  | none => some none
  | some (Json.str s) => some (some s)
  | some _ => none

/-- View a scaled-ingredient element as an `Ingredient`.  A non-dict
element makes the search's own except branch raise AttributeError at
`ingredient.get` (lines 313–319), aborting the loop; dicts whose fields
hold non-string values are outside this model (their searches end in the
sentinel result without aborting). -/
def jsonToIngredient : Json → Option Ingredient
  | .obj kvs => do
    let n ← optStrField kvs ("name".toList)
    let a ← optStrField kvs ("amount".toList)
    let u ← optStrField kvs ("unit".toList)
    let c ← optStrField kvs ("category".toList)
    let nt ← optStrField kvs ("notes".toList)
    pure { name := n, amount := a, unit := u, category := c, notes := nt }
  | _ => none

/-- Inside the walmart loop the driver has already been created by the
pre-loop `_ensure_browser()`. -/
def withDriverUp (b : BrowserBehavior) : BrowserBehavior :=
  { b with driverAlready := true }

/-- The walmart search loop (lines 183–187): one search per element of
`scaled_ingredients`, appended in order. -/
def matchLoop (bs : Nat → BrowserBehavior) : Nat → List Json → Except (List Char) (List ProductMatch)
  | _, [] => .ok []
  | i, e :: rest =>
    match jsonToIngredient e with
    | none => .error attrErrMsg
    | some ing =>
      match search_walmart_product ing (withDriverUp (bs i)) with
      | .error _ => .error ("browser launch failed".toList)
      | .ok m =>
        match matchLoop bs (i + 1) rest with
        | .ok ms => .ok (m :: ms)
        | .error err => .error err

/-- The result dict of process_recipe_url (lines 172–177). -/
structure MainResult where
  recipe_url : List Char
  original_recipe : List Char
  scaled_recipe : Json
  walmart_products : List ProductMatch

/-- main.RecipeAssistant.process_recipe_url (lines 138–189), non-debug
path.  There is no try/except: a fetch error, a scale-stage error, an
ill-typed field hit by the printing block (lines 160–170), a failed
pre-loop browser launch, or a non-dict element in the search loop all
propagate out (`Except.error`). -/
def process_recipe_url (url : List Char) (search_walmart : Bool) (env : MainEnv) :
    Except (List Char) MainResult :=
  match env.fetchText with
  | .error m => .error m
  | .ok recipeText =>
    match jget (parse_recipe_with_claude env.parseResp) ("ingredients".toList) (Json.arr []) with
    | .error _ => .error attrErrMsg
    | .ok ingVal =>
      match pyLen ingVal with
      | none => .error ("TypeError len".toList)
      | some _ =>
        match scale_recipe env.scaleResp with
        | .error m => .error m
        | .ok scaled =>
          match jget scaled ("shopping_list".toList) (Json.arr []) with
          | .error _ => .error attrErrMsg
          | .ok slVal =>
            match iterElems slVal with
            | none => .error ("TypeError iteration".toList)
            | some _ =>
              match jget scaled ("storage_tips".toList) (Json.obj []) with
              | .error _ => .error attrErrMsg
              | .ok stVal =>
                match stVal with
                | .obj _ =>
                  match jget scaled ("estimated_cost".toList) (Json.num ("0".toList)) with
                  | .error _ => .error attrErrMsg
                  | .ok costVal =>
                    if canFloatFormat costVal then
                      if search_walmart then
                        if env.launchOk then
                          match jget scaled ("scaled_ingredients".toList) (Json.arr []) with
                          | .error _ => .error attrErrMsg
                          | .ok siVal =>
                            match iterElems siVal with
                            | none => .error ("TypeError iteration".toList)
                            | some elems =>
                              match matchLoop env.matchBehavior 0 elems with
                              | .error m => .error m
                              | .ok products =>
                                .ok { recipe_url := url, original_recipe := recipeText,
                                      scaled_recipe := scaled, walmart_products := products }
                        else .error ("browser launch failed".toList)
                      else
                        .ok { recipe_url := url, original_recipe := recipeText,
                              scaled_recipe := scaled, walmart_products := [] }
                    else .error ("TypeError format".toList)
                | _ => .error attrErrMsg

/-! ## Concrete environments and observation helpers used by the claim
witnesses and counterexamples -/

/-- A CLI environment with no API key and failing collaborators. -/
def cliEnvTrivial : CliEnv :=
  { apiKey := none, fetch := .error [], claudeResp1 := .error [],
    claudeResp2 := .error [] }

/-- The parse-stage model response of the happy-path environment. -/
def happyParseResp : List Char :=
  "\x7b\"recipe_name\": \"Soup\", \"original_servings\": 2, \"ingredients\": [\x7b\"name\": \"leek\"\x7d]\x7d".toList

/-- The (fenced) scale-stage model response of the happy-path environment;
it deliberately echoes a wrong `scaled_servings` of 9. -/
def happyScaleResp : List Char :=
  "```json\n\x7b\"recipe_name\": \"Soup\", \"scaled_servings\": 9, \"shopping_list\": [], \"estimated_total_cost\": 12, \"storage_tips\": \x7b\x7d\x7d\n```".toList

/-- A fully successful CLI environment. -/
def cliEnvHappy : CliEnv :=
  { apiKey := some ['k'], fetch := .ok { status := 200, text := "page".toList },
    claudeResp1 := .ok happyParseResp, claudeResp2 := .ok happyScaleResp }

/-- The happy environment with a 304 Not Modified fetch response. -/
def cliEnv304 : CliEnv :=
  { cliEnvHappy with fetch := .ok { status := 304, text := [] } }

/-- The happy environment with a 404 fetch response. -/
def cliEnv404 : CliEnv :=
  { cliEnvHappy with fetch := .ok { status := 404, text := [] } }

/-- A parse-stage response whose `original_servings` is 0. -/
def zeroServResp : List Char :=
  "\x7b\"recipe_name\": \"Soup\", \"original_servings\": 0, \"ingredients\": [\x7b\"name\": \"leek\"\x7d]\x7d".toList

def cliEnvZeroServ : CliEnv := { cliEnvHappy with claudeResp1 := .ok zeroServResp }

/-- A parse-stage response with no `original_servings` key at all. -/
def noServResp : List Char :=
  "\x7b\"recipe_name\": \"Soup\", \"ingredients\": [\x7b\"name\": \"leek\"\x7d]\x7d".toList

def cliEnvNoServ : CliEnv := { cliEnvHappy with claudeResp1 := .ok noServResp }

/-- Observation of the `original_servings` entry of a result dict. -/
def originalServingsOf : CliResult → Option Json
  | .ok f => some f.original_servings
  | .fail _ => none

/-- A produce ingredient used in several concrete checks. -/
def ingGarlic : Ingredient :=
  { name := some "garlic".toList, amount := some ['3'],
    unit := some "whole".toList, category := some "produce".toList, notes := none }

/-- A browser state with no driver yet whose launch raises. -/
def browserDead : BrowserBehavior :=
  { driverAlready := false, launchOk := false, navOk := true,
    containerFound := true, css := fun _ => none, primaryHref := none,
    anchorsOk := true, anchors := [] }

/-- A live browser whose container wait times out. -/
def browserTimeout : BrowserBehavior :=
  { browserDead with driverAlready := true, containerFound := false }

/-- The environment of the C4 counterexample: the scale stage returns one
`scaled_ingredients` entry but an *empty* `shopping_list`. -/
def mainEnvC4 : MainEnv :=
  { fetchText := .ok "page".toList,
    parseResp := .ok "\x7b\"ingredients\": [], \"servings\": 2\x7d".toList,
    scaleResp := .ok "\x7b\"scaled_ingredients\": [\x7b\"name\": \"garlic\", \"category\": \"produce\"\x7d], \"shopping_list\": [], \"storage_tips\": \x7b\x7d, \"estimated_cost\": 3\x7d".toList,
    launchOk := true,
    matchBehavior := fun _ => browserTimeout }

/-- The C4-witness environment: an empty `scaled_ingredients` list. -/
def mainEnvC4W : MainEnv :=
  { mainEnvC4 with
    scaleResp := .ok "\x7b\"scaled_ingredients\": [], \"shopping_list\": [], \"storage_tips\": \x7b\x7d, \"estimated_cost\": 0\x7d".toList }

/-- A main.py environment whose recipe fetch raises. -/
def mainEnvFetchFail : MainEnv :=
  { mainEnvC4 with fetchText := .error ("boom".toList) }

/-- A main.py environment whose scale-stage model call raises. -/
def mainEnvScaleFail : MainEnv :=
  { mainEnvC4 with scaleResp := .error ("scaleboom".toList) }

/-- The happy environment with a network-level fetch failure. -/
def cliEnvFetchErr : CliEnv := { cliEnvHappy with fetch := .error ("boom".toList) }

/-- A CLI environment whose scale stage returns a *string* total cost: the
success dict then carries a non-numeric `estimated_cost`, on which
format_for_chat's `:.2f` raises. -/
def cliEnvBadCost : CliEnv :=
  { cliEnvHappy with
    claudeResp2 := .ok "\x7b\"estimated_total_cost\": \"12\"\x7d".toList }

/-- The success dict of the happy-path run (servings 3). -/
def cliSuccessHappy : CliSuccess :=
  { url := ['u'], recipe_name := Json.str ("Soup".toList),
    original_servings := Json.num ['2'], scaled_servings := 3,
    shopping_list := Json.arr [], estimated_cost := Json.num ("12".toList),
    storage_tips := Json.obj [] }

/-- The success dict of the run whose parse stage omitted
`original_servings` (servings 7). -/
def cliSuccessNoServ : CliSuccess :=
  { url := ['u'], recipe_name := Json.str ("Soup".toList),
    original_servings := Json.num ['4'], scaled_servings := 7,
    shopping_list := Json.arr [], estimated_cost := Json.num ("12".toList),
    storage_tips := Json.obj [] }

/-- The members of the parsed object of `noServResp`. -/
def kvsNoServ : List (List Char × Json) :=
  [("recipe_name".toList, Json.str ("Soup".toList)),
   ("ingredients".toList, Json.arr [Json.obj [("name".toList, Json.str ("leek".toList))]])]

/-- A live browser on which every selector raises. -/
def browserLive : BrowserBehavior := { browserDead with driverAlready := true }

/-- The fully-sentinel product match that `browserLive` produces for the
garlic ingredient. -/
def pmLive : ProductMatch :=
  { ingredient := ingGarlic,
    product := { name := "Name not found".toList, url := "URL not found".toList,
                 price := "Price not found".toList,
                 quantity_needed := "3 whole".toList } }

/-- The result of the C4-witness run. -/
def mainResultC4W : MainResult :=
  { recipe_url := ['u'], original_recipe := "page".toList,
    scaled_recipe := Json.obj [("scaled_ingredients".toList, Json.arr []),
      ("shopping_list".toList, Json.arr []),
      ("storage_tips".toList, Json.obj []),
      ("estimated_cost".toList, Json.num ['0'])],
    walmart_products := [] }

/-- Count of walmart product matches of a run. -/
def walmartCount : Except (List Char) MainResult → Option Nat
  | .ok r => some r.walmart_products.length
  | .error _ => none

/-- Length of the scaled recipe's `shopping_list` of a run. -/
def shoppingCount : Except (List Char) MainResult → Option Nat
  | .ok r =>
    match jget r.scaled_recipe ("shopping_list".toList) (Json.arr []) with
    | .ok (Json.arr l) => some l.length
    | _ => none
  | .error _ => none

/-! ## List and string lemmas -/

theorem jsonWs_imp_pyWs {c : Char} (h : isJsonWs c = true) : isPyWs c = true := by
  simp [isPyWs, h]

theorem dropWhile_self_of_head {p : Char → Bool} {l : List Char}
    (h : ∀ c, l.head? = some c → p c = false) : l.dropWhile p = l := by
  cases l with
  | nil => rfl
  | cons x xs =>
    have hx : p x = false := h x rfl
    simp [List.dropWhile_cons, hx]

theorem head?_dropWhile {p : Char → Bool} {l : List Char} {c : Char}
    (h : (l.dropWhile p).head? = some c) : p c = false := by
  induction l with
  | nil => simp at h
  | cons x xs ih =>
    by_cases hx : p x = true
    · rw [List.dropWhile_cons_of_pos hx] at h; exact ih h
    · rw [List.dropWhile_cons_of_neg hx] at h
      simp at h
      rw [← h]
      exact Bool.not_eq_true _ ▸ hx

theorem dropWhile_idem {p : Char → Bool} {l : List Char} :
    (l.dropWhile p).dropWhile p = l.dropWhile p := by
  apply dropWhile_self_of_head
  intro c hc
  exact head?_dropWhile hc

theorem rstripBy_reverse {p : Char → Bool} {l : List Char} :
    (rstripBy p l).reverse = l.reverse.dropWhile p := by
  simp [rstripBy]

theorem rstripBy_idem {p : Char → Bool} {l : List Char} :
    rstripBy p (rstripBy p l) = rstripBy p l := by
  show ((rstripBy p l).reverse.dropWhile p).reverse = rstripBy p l
  rw [rstripBy_reverse, dropWhile_idem]
  rfl

theorem rstripBy_eq_nil_iff {p : Char → Bool} {l : List Char} :
    rstripBy p l = [] ↔ ∀ a ∈ l, p a := by
  unfold rstripBy
  rw [List.reverse_eq_nil_iff, List.dropWhile_eq_nil_iff]
  constructor
  · intro h a ha; exact h a (List.mem_reverse.mpr ha)
  · intro h a ha; exact h a (List.mem_reverse.mp ha)

theorem rstripBy_append {p : Char → Bool} {a s : List Char}
    (h : rstripBy p s ≠ []) : rstripBy p (a ++ s) = a ++ rstripBy p s := by
  have hne : (s.reverse.dropWhile p).isEmpty = false := by
    cases hdw : s.reverse.dropWhile p with
    | nil => exact absurd (by simp [rstripBy, hdw]) h
    | cons x xs => rfl
  unfold rstripBy
  rw [List.reverse_append, List.dropWhile_append, hne]
  simp

theorem rstripBy_snoc_pos {p : Char → Bool} {l : List Char} {c : Char}
    (h : p c = true) : rstripBy p (l ++ [c]) = rstripBy p l := by
  unfold rstripBy
  rw [List.reverse_append]
  simp [List.dropWhile_cons, h]

theorem exists_rstripBy_sfx (p : Char → Bool) (l : List Char) :
    ∃ t, l = rstripBy p l ++ t := by
  refine ⟨(l.reverse.takeWhile p).reverse, ?_⟩
  unfold rstripBy
  rw [← List.reverse_append, List.takeWhile_append_dropWhile, List.reverse_reverse]

theorem exists_dropWhile_pre (p : Char → Bool) (l : List Char) :
    ∃ t, l = t ++ l.dropWhile p :=
  ⟨l.takeWhile p, (List.takeWhile_append_dropWhile p l).symm⟩

theorem head?_append_of_ne_nil {a b : List Char} (h : a ≠ []) :
    (a ++ b).head? = a.head? := by
  cases a with
  | nil => exact absurd rfl h
  | cons x xs => rfl

theorem rstripBy_ne_nil_of_head {p : Char → Bool} {l : List Char} {c : Char}
    (hc : l.head? = some c) (hpc : p c = false) : rstripBy p l ≠ [] := by
  intro hnil
  have hall := rstripBy_eq_nil_iff.mp hnil
  cases l with
  | nil => simp at hc
  | cons x xs =>
    have hx : p x = true := hall x (by simp)
    simp at hc
    rw [hc] at hx
    rw [hx] at hpc
    exact Bool.true_eq_false ▸ hpc

theorem dropWhile_rstripBy_comm {p : Char → Bool} {l : List Char} :
    (rstripBy p l).dropWhile p = rstripBy p (l.dropWhile p) := by
  have ha : l = l.takeWhile p ++ l.dropWhile p := (List.takeWhile_append_dropWhile p l).symm
  have hall : ∀ x ∈ l.takeWhile p, p x := fun x hx => List.mem_takeWhile_imp hx
  by_cases hb : l.dropWhile p = []
  · rw [hb]
    have h1 : rstripBy p l = [] := by
      rw [rstripBy_eq_nil_iff]
      intro x hx
      rw [ha] at hx
      rw [hb, List.append_nil] at hx
      exact hall x hx
    rw [h1]
    rfl
  · have hhead : ∃ c, (l.dropWhile p).head? = some c := by
      cases hdw : l.dropWhile p with
      | nil => exact absurd hdw hb
      | cons x xs => exact ⟨x, rfl⟩
    obtain ⟨c, hc⟩ := hhead
    have hpc : p c = false := head?_dropWhile hc
    have hrs : rstripBy p (l.dropWhile p) ≠ [] := rstripBy_ne_nil_of_head hc hpc
    calc (rstripBy p l).dropWhile p
        = (rstripBy p (l.takeWhile p ++ l.dropWhile p)).dropWhile p := by rw [← ha]
      _ = (l.takeWhile p ++ rstripBy p (l.dropWhile p)).dropWhile p := by
          rw [rstripBy_append hrs]
      _ = rstripBy p (l.dropWhile p) := by
          rw [List.dropWhile_append_of_pos hall]
          apply dropWhile_self_of_head
          intro d hd
          obtain ⟨t, ht⟩ := exists_rstripBy_sfx p (l.dropWhile p)
          have hh : (rstripBy p (l.dropWhile p)).head? = (l.dropWhile p).head? := by
            conv_rhs => rw [ht]
            exact (head?_append_of_ne_nil hrs).symm
          rw [hh, hc] at hd
          simp at hd
          rw [← hd]
          exact hpc

theorem pyStrip_idem {l : List Char} : pyStrip (pyStrip l) = pyStrip l := by
  unfold pyStrip
  rw [← dropWhile_rstripBy_comm, rstripBy_idem, dropWhile_idem]

theorem pyStrip_snoc_nl {s : List Char} : pyStrip (s ++ ['\n']) = pyStrip s := by
  unfold pyStrip
  rw [rstripBy_snoc_pos (by decide : isPyWs '\n' = true)]

/-! ### Substring-occurrence lemmas -/

theorem isPrefixOf_append_self {l t : List Char} : l.isPrefixOf (l ++ t) = true :=
  List.isPrefixOf_iff_prefix.mpr (List.prefix_append l t)

theorem occursB_extend_left {pat b : List Char} (a : List Char)
    (h : occursB pat b = true) : occursB pat (a ++ b) = true := by
  induction a with
  | nil => exact h
  | cons c a' ih =>
    show (pat.isPrefixOf (c :: (a' ++ b)) || occursB pat (a' ++ b)) = true
    rw [ih]
    simp

theorem occursB_extend_right {pat a : List Char} (b : List Char)
    (h : occursB pat a = true) : occursB pat (a ++ b) = true := by
  induction a with
  | nil =>
    have : pat = [] := by simpa [occursB, List.isEmpty_iff] using h
    subst this
    cases b with
    | nil => rfl
    | cons x xs => simp [occursB, List.isPrefixOf]
  | cons c a' ih =>
    have h' : (pat.isPrefixOf (c :: a') || occursB pat a') = true := h
    rcases Bool.or_eq_true_iff.mp h' with hp | ho
    · have : pat <+: (c :: a') := List.isPrefixOf_iff_prefix.mp hp
      have : pat <+: (c :: a') ++ b := this.trans (List.prefix_append _ _)
      show (pat.isPrefixOf (c :: (a' ++ b)) || _) = true
      rw [List.isPrefixOf_iff_prefix.mpr (by simpa using this)]
      simp
    · show (_ || occursB pat (a' ++ b)) = true
      rw [ih ho]
      simp

theorem occursB_segment {pat a y b : List Char}
    (h : occursB pat (a ++ y ++ b) = false) : occursB pat y = false := by
  by_contra hy
  have hy' : occursB pat y = true := by
    cases hocc : occursB pat y with
    | false => exact absurd hocc hy
    | true => rfl
  have : occursB pat (a ++ y ++ b) = true := by
    rw [List.append_assoc]
    exact occursB_extend_left a (occursB_extend_right b hy')
  rw [this] at h
  exact Bool.true_eq_false ▸ h

theorem isPrefixOf_false_of_occursB {pat s : List Char}
    (h : occursB pat s = false) : pat.isPrefixOf s = false := by
  cases s with
  | nil =>
    cases pat with
    | nil => simp [occursB] at h
    | cons a t => rfl
  | cons c rest =>
    have h' : (pat.isPrefixOf (c :: rest) || occursB pat rest) = false := h
    exact (Bool.or_eq_false_iff.mp h').1

theorem endsWithB_append_self {x pat : List Char} : endsWithB (x ++ pat) pat = true := by
  unfold endsWithB
  rw [List.reverse_append]
  exact isPrefixOf_append_self

theorem occursB_of_endsWithB {s pat : List Char}
    (h : endsWithB s pat = true) (hpat : occursB pat pat = true) : occursB pat s = true := by
  unfold endsWithB at h
  obtain ⟨t, ht⟩ := List.isPrefixOf_iff_prefix.mp h
  have hs : s = t.reverse ++ pat := by
    have := congrArg List.reverse ht
    simpa [List.reverse_append] using this.symm
  rw [hs]
  exact occursB_extend_left _ hpat

theorem endsWithB_false_of_occursB {s : List Char}
    (h : occursB fence s = false) : endsWithB s fence = false := by
  cases he : endsWithB s fence with
  | false => rfl
  | true =>
    have := occursB_of_endsWithB he (by decide)
    rw [this] at h
    exact absurd h (by simp)

/-! ### First-line and rsplit lemmas -/

theorem dropFirstLine_append {a y : List Char}
    (h : ∀ c ∈ a, (c == '\n') = false) : dropFirstLine (a ++ '\n' :: y) = y := by
  induction a with
  | nil => simp [dropFirstLine]
  | cons c a' ih =>
    have hc : (c == '\n') = false := h c (by simp)
    unfold dropFirstLine
    rw [List.cons_append, List.dropWhile_cons_of_pos (by simp [hc])]
    exact ih (fun d hd => h d (by simp [hd]))

theorem splitOffFirstLine_append {a y : List Char}
    (h : ∀ c ∈ a, (c == '\n') = false) :
    splitOffFirstLine (a ++ '\n' :: y) = some y := by
  unfold splitOffFirstLine
  rw [if_pos, dropFirstLine_append h]
  simp

theorem rsplitBefore_last {s : List Char} (h : occursB fence s = false) :
    rsplitBefore fence (s ++ '\n' :: fence) = s ++ ['\n'] := by
  induction s with
  | nil =>
    show rsplitBefore fence ('\n' :: fence) = ['\n']
    decide
  | cons c s' ih =>
    have h' : (fence.isPrefixOf (c :: s') || occursB fence s') = false := h
    have hs' : occursB fence s' = false := (Bool.or_eq_false_iff.mp h').2
    have hocc : occursB fence (s' ++ '\n' :: fence) = true :=
      occursB_extend_left s' (by decide)
    show rsplitBefore fence (c :: (s' ++ '\n' :: fence)) = c :: (s' ++ ['\n'])
    unfold rsplitBefore
    rw [if_pos hocc, ih hs']

theorem fence_no_nl : ∀ c ∈ fence, (c == '\n') = false := by decide

/-! ### pyStrip on fenced texts -/

theorem dropWhile_fence_append {x : List Char} :
    (fence ++ x).dropWhile isPyWs = fence ++ x := by
  rw [List.dropWhile_append]
  rw [(by decide : fence.dropWhile isPyWs = fence)]
  rw [if_neg (by decide)]

theorem pyStrip_fence_parts {y : List Char} (h : rstripBy isPyWs y ≠ []) :
    pyStrip (fence ++ y) = fence ++ rstripBy isPyWs y := by
  unfold pyStrip
  rw [rstripBy_append h, dropWhile_fence_append]

theorem pyStrip_rstripBy {s : List Char} :
    pyStrip (rstripBy isPyWs s) = pyStrip s := by
  unfold pyStrip
  rw [rstripBy_idem]

theorem occursB_rstripBy_false {s : List Char} (h : occursB fence s = false) :
    occursB fence (rstripBy isPyWs s) = false := by
  obtain ⟨t, ht⟩ := exists_rstripBy_sfx isPyWs s
  have h' : occursB fence ([] ++ rstripBy isPyWs s ++ t) = false := by
    simpa using ht ▸ h
  exact occursB_segment h'

theorem occursB_pyStrip_false {s : List Char} (h : occursB fence s = false) :
    occursB fence (pyStrip s) = false := by
  obtain ⟨u, hu⟩ := exists_dropWhile_pre isPyWs (rstripBy isPyWs s)
  have h1 : occursB fence (rstripBy isPyWs s) = false := occursB_rstripBy_false h
  have h2 : occursB fence (u ++ pyStrip s ++ []) = false := by
    simp only [List.append_nil]
    unfold pyStrip
    rw [← hu]
    exact h1
  exact occursB_segment h2

/-! ### The cleaner on each wrapping variant -/

theorem clean_cli_nofence {s : List Char} (h : occursB fence s = false) :
    clean_cli s = pyStrip s := by
  unfold clean_cli
  rw [if_neg (by rw [isPrefixOf_false_of_occursB (occursB_pyStrip_false h)]; simp)]
  exact pyStrip_idem

theorem clean_cli_fence_nl {tag s : List Char}
    (htag : ∀ c ∈ tag, (c == '\n') = false)
    (hocc : occursB fence s = false)
    (hne : rstripBy isPyWs s ≠ []) :
    clean_cli (fence ++ tag ++ '\n' :: s) = pyStrip s := by
  have hy : rstripBy isPyWs ((tag ++ ['\n']) ++ s) = (tag ++ ['\n']) ++ rstripBy isPyWs s :=
    rstripBy_append hne
  have hps : pyStrip (fence ++ tag ++ '\n' :: s)
      = fence ++ tag ++ '\n' :: rstripBy isPyWs s := by
    have h0 : fence ++ tag ++ '\n' :: s = fence ++ ((tag ++ ['\n']) ++ s) := by simp
    rw [h0, pyStrip_fence_parts (by rw [hy]; simp), hy]
    simp
  have hdfl : dropFirstLine (fence ++ tag ++ '\n' :: rstripBy isPyWs s)
      = rstripBy isPyWs s := by
    have h0 : fence ++ tag ++ '\n' :: rstripBy isPyWs s
        = (fence ++ tag) ++ '\n' :: rstripBy isPyWs s := by simp
    rw [h0]
    apply dropFirstLine_append
    intro c hc
    rcases List.mem_append.mp hc with hf | ht
    · exact fence_no_nl c hf
    · exact htag c ht
  have hpre : fence.isPrefixOf (fence ++ tag ++ '\n' :: rstripBy isPyWs s) = true := by
    rw [List.append_assoc]
    exact isPrefixOf_append_self
  unfold clean_cli
  rw [hps, if_pos hpre, hdfl,
    if_neg (by rw [occursB_rstripBy_false hocc]; simp), pyStrip_rstripBy]

theorem clean_cli_fence_both {tag s : List Char}
    (htag : ∀ c ∈ tag, (c == '\n') = false)
    (hocc : occursB fence s = false) :
    clean_cli (fence ++ tag ++ '\n' :: (s ++ '\n' :: fence)) = pyStrip s := by
  have hy : rstripBy isPyWs ((tag ++ ['\n'] ++ s ++ ['\n']) ++ fence)
      = (tag ++ ['\n'] ++ s ++ ['\n']) ++ fence := by
    rw [rstripBy_append (by decide), (by decide : rstripBy isPyWs fence = fence)]
  have hps : pyStrip (fence ++ tag ++ '\n' :: (s ++ '\n' :: fence))
      = fence ++ tag ++ '\n' :: (s ++ '\n' :: fence) := by
    have h0 : fence ++ tag ++ '\n' :: (s ++ '\n' :: fence)
        = fence ++ ((tag ++ ['\n'] ++ s ++ ['\n']) ++ fence) := by simp
    rw [h0, pyStrip_fence_parts (by rw [hy]; simp), hy]
  have hdfl : dropFirstLine (fence ++ tag ++ '\n' :: (s ++ '\n' :: fence))
      = s ++ '\n' :: fence := by
    have h0 : fence ++ tag ++ '\n' :: (s ++ '\n' :: fence)
        = (fence ++ tag) ++ '\n' :: (s ++ '\n' :: fence) := by simp
    rw [h0]
    apply dropFirstLine_append
    intro c hc
    rcases List.mem_append.mp hc with hf | ht
    · exact fence_no_nl c hf
    · exact htag c ht
  have hocc2 : occursB fence (s ++ '\n' :: fence) = true :=
    occursB_extend_left s (by decide)
  have hpre : fence.isPrefixOf (fence ++ tag ++ '\n' :: (s ++ '\n' :: fence)) = true := by
    rw [List.append_assoc]
    exact isPrefixOf_append_self
  unfold clean_cli
  rw [hps, if_pos hpre, hdfl, if_pos hocc2,
    rsplitBefore_last hocc, pyStrip_snoc_nl]

theorem clean_main_nofence {s : List Char} (h : occursB fence s = false) :
    clean_main s = some (pyStrip s) := by
  unfold clean_main
  rw [if_neg (by rw [isPrefixOf_false_of_occursB h]; simp)]

theorem clean_main_fence_nl {tag s : List Char}
    (htag : ∀ c ∈ tag, (c == '\n') = false)
    (hocc : occursB fence s = false) :
    clean_main (fence ++ tag ++ '\n' :: s) = some (pyStrip s) := by
  have hsplit : splitOffFirstLine (fence ++ tag ++ '\n' :: s) = some s := by
    have h0 : fence ++ tag ++ '\n' :: s = (fence ++ tag) ++ '\n' :: s := by simp
    rw [h0]
    apply splitOffFirstLine_append
    intro c hc
    rcases List.mem_append.mp hc with hf | ht
    · exact fence_no_nl c hf
    · exact htag c ht
  have hpre : fence.isPrefixOf (fence ++ tag ++ '\n' :: s) = true := by
    rw [List.append_assoc]
    exact isPrefixOf_append_self
  unfold clean_main
  rw [if_pos hpre, hsplit]
  show (if endsWithB s fence = true then some (pyStrip (pySliceDropRight 3 s))
      else if occursB fence s = true then some (pyStrip (rsplitBefore fence s))
      else some (pyStrip s)) = some (pyStrip s)
  rw [if_neg (by rw [endsWithB_false_of_occursB hocc]; simp),
    if_neg (by rw [hocc]; simp)]

theorem clean_main_fence_both {tag s : List Char}
    (htag : ∀ c ∈ tag, (c == '\n') = false)
    (_hocc : occursB fence s = false) :
    clean_main (fence ++ tag ++ '\n' :: (s ++ '\n' :: fence)) = some (pyStrip s) := by
  have hsplit : splitOffFirstLine (fence ++ tag ++ '\n' :: (s ++ '\n' :: fence))
      = some (s ++ '\n' :: fence) := by
    have h0 : fence ++ tag ++ '\n' :: (s ++ '\n' :: fence)
        = (fence ++ tag) ++ '\n' :: (s ++ '\n' :: fence) := by simp
    rw [h0]
    apply splitOffFirstLine_append
    intro c hc
    rcases List.mem_append.mp hc with hf | ht
    · exact fence_no_nl c hf
    · exact htag c ht
  have hends : endsWithB (s ++ '\n' :: fence) fence = true := by
    have h0 : s ++ '\n' :: fence = (s ++ ['\n']) ++ fence := by simp
    rw [h0]
    exact endsWithB_append_self
  have hslice : pySliceDropRight 3 (s ++ '\n' :: fence) = s ++ ['\n'] := by
    unfold pySliceDropRight
    have hlen : (s ++ '\n' :: fence).length - 3 = s.length + 1 := by
      simp [fence]
    rw [hlen]
    have := @List.take_append _ s ('\n' :: fence) 1
    simpa using this
  have hpre : fence.isPrefixOf (fence ++ tag ++ '\n' :: (s ++ '\n' :: fence)) = true := by
    rw [List.append_assoc]
    exact isPrefixOf_append_self
  unfold clean_main
  rw [if_pos hpre, hsplit]
  show (if endsWithB (s ++ '\n' :: fence) fence = true then
        some (pyStrip (pySliceDropRight 3 (s ++ '\n' :: fence)))
      else if occursB fence (s ++ '\n' :: fence) = true then
        some (pyStrip (rsplitBefore fence (s ++ '\n' :: fence)))
      else some (pyStrip (s ++ '\n' :: fence))) = some (pyStrip s)
  rw [if_pos hends, hslice, pyStrip_snoc_nl]

/-! ### json.loads is stable under a final strip -/

theorem boundaryOk_pyStrip {l : List Char} : boundaryOk (pyStrip l) = true := by
  unfold boundaryOk
  have h1 : (pyStrip l).dropWhile isPyWs = pyStrip l := dropWhile_idem
  have h2 : (pyStrip l).dropWhile isJsonWs = pyStrip l := by
    apply dropWhile_self_of_head
    intro c hc
    have hpy : isPyWs c = false := head?_dropWhile (p := isPyWs) hc
    cases hjson : isJsonWs c with
    | false => rfl
    | true => rw [jsonWs_imp_pyWs hjson] at hpy; exact absurd hpy (by simp)
  have hrev : (pyStrip l).reverse = (l.dropWhile isPyWs).reverse.dropWhile isPyWs := by
    have hcomm : pyStrip l = rstripBy isPyWs (l.dropWhile isPyWs) := dropWhile_rstripBy_comm
    rw [hcomm, rstripBy_reverse]
  have h3 : (pyStrip l).reverse.dropWhile isPyWs = (pyStrip l).reverse := by
    rw [hrev, dropWhile_idem]
  have h4 : (pyStrip l).reverse.dropWhile isJsonWs = (pyStrip l).reverse := by
    apply dropWhile_self_of_head
    intro c hc
    rw [hrev] at hc
    have hpy : isPyWs c = false := head?_dropWhile (p := isPyWs) hc
    cases hjson : isJsonWs c with
    | false => rfl
    | true => rw [jsonWs_imp_pyWs hjson] at hpy; exact absurd hpy (by simp)
  rw [h1, h2, h3, h4]
  simp

theorem json_loads_pyStrip {s : List Char} {v : Json}
    (h : json_loads s = some v) : json_loads (pyStrip s) = some v := by
  unfold json_loads at h ⊢
  by_cases hb : boundaryOk s = true
  · rw [if_pos hb] at h
    rw [if_pos boundaryOk_pyStrip, pyStrip_idem]
    exact h
  · rw [if_neg hb] at h
    exact absurd h (by simp)

theorem rstripBy_ne_nil_of_loads {s : List Char} {v : Json}
    (h : json_loads s = some v) : rstripBy isPyWs s ≠ [] := by
  intro hnil
  have hps : pyStrip s = [] := by unfold pyStrip; rw [hnil]; rfl
  unfold json_loads at h
  by_cases hb : boundaryOk s = true
  · rw [if_pos hb, hps] at h
    have : jparse ([] : List Char) = none := rfl
    rw [this] at h
    exact absurd h (by simp)
  · rw [if_neg hb] at h
    exact absurd h (by simp)

/-! ## Claim C3 -/

/-- A valid JSON document that contains the fence marker inside a string
literal — the input on which the cleaner misfires. -/
def c3CounterDoc : List Char := "\x7b\"a\": \"```\"\x7d".toList

/-- **C3, counterexample.**  The claim states that for *every* valid JSON
string `s` and every wrapping variant the cleaner output parses as JSON.
It is false: `{"a": "```"}` is valid JSON, but wrapping it in a single
leading fence line makes the cleaner truncate at the fence marker inside
the string literal, so the output no longer parses. -/
theorem claim_C3_counterexample :
    (json_loads c3CounterDoc).isSome = true ∧
    call_claude_text (fence ++ "json".toList ++ '\n' :: c3CounterDoc) = none :=
  ⟨rfl, rfl⟩

/-- **C3 (amended).**  For every string `s` that is valid JSON *and does
not itself contain the fence marker* ``` , and for every newline-free
language tag, the response cleaners of both the CLI client
(`call_claude`, recipe_cli.py) and the browser client (`_call_claude`,
main.py) produce output that parses as JSON, equal to the JSON value of
`s`, across the wrapping variants: no fence, a leading fence line (with or
without a language tag), and a leading fence plus a trailing fence. -/
theorem claim_C3_amended {tag s : List Char} {v : Json}
    (htag : ∀ c ∈ tag, (c == '\n') = false)
    (hocc : occursB fence s = false)
    (hv : json_loads s = some v) :
    call_claude_text s = some v ∧
    call_claude_text (fence ++ tag ++ '\n' :: s) = some v ∧
    call_claude_text (fence ++ tag ++ '\n' :: (s ++ '\n' :: fence)) = some v ∧
    call_claude_main_text s = some v ∧
    call_claude_main_text (fence ++ tag ++ '\n' :: s) = some v ∧
    call_claude_main_text (fence ++ tag ++ '\n' :: (s ++ '\n' :: fence)) = some v := by
  have hps := json_loads_pyStrip hv
  have hne := rstripBy_ne_nil_of_loads hv
  refine ⟨?_, ?_, ?_, ?_, ?_, ?_⟩
  · show json_loads (clean_cli s) = some v
    rw [clean_cli_nofence hocc]; exact hps
  · show json_loads (clean_cli _) = some v
    rw [clean_cli_fence_nl htag hocc hne]; exact hps
  · show json_loads (clean_cli _) = some v
    rw [clean_cli_fence_both htag hocc]; exact hps
  · show (clean_main s).bind json_loads = some v
    rw [clean_main_nofence hocc]; exact hps
  · show (clean_main _).bind json_loads = some v
    rw [clean_main_fence_nl htag hocc]; exact hps
  · show (clean_main _).bind json_loads = some v
    rw [clean_main_fence_both htag hocc]; exact hps

/-- Witness for C3: the amended theorem applied to the concrete document
`{"a": 1}` wrapped in `json`-tagged fences. -/
theorem claim_C3_witness :
    call_claude_text (fence ++ "json".toList ++ '\n' ::
      ("\x7b\"a\": 1\x7d".toList ++ '\n' :: fence))
      = some (Json.obj [("a".toList, Json.num ['1'])]) :=
  (@claim_C3_amended "json".toList ("\x7b\"a\": 1\x7d".toList)
    (Json.obj [("a".toList, Json.num ['1'])])
    (by decide) (by decide) rfl).2.2.1

/-! ## Inversion lemmas for process_recipe -/

theorem cliHandle_not_ok (e : PyExc) (f : CliSuccess) : cliHandle e ≠ CliResult.ok f := by
  cases e <;> simp [cliHandle]

theorem cliHandle_success (e : PyExc) : (cliHandle e).success = false := by
  cases e <;> rfl

theorem cliHandle_fail (e : PyExc) : ∃ m, cliHandle e = CliResult.fail m := by
  cases e <;> exact ⟨_, rfl⟩

theorem assembleSuccess_servings {url : List Char} {servings : Int}
    {parsed scaled : Json} {s : CliSuccess}
    (h : assembleSuccess url servings parsed scaled = .ok s) :
    s.scaled_servings = servings := by
  unfold assembleSuccess at h
  simp only [bind, Except.bind, pure, Except.pure] at h
  repeat' split at h
  all_goals
    first
      | (injection h with h2; rw [← h2])
      | simp at h

theorem assembleSuccess_orig {url : List Char} {servings : Int}
    {parsed scaled : Json} {s : CliSuccess}
    (h : assembleSuccess url servings parsed scaled = .ok s) :
    jget parsed ("original_servings".toList) (Json.num ("4".toList)) = .ok s.original_servings := by
  unfold assembleSuccess at h
  simp only [bind, Except.bind, pure, Except.pure] at h
  repeat' split at h
  all_goals
    first
      | (injection h with h2; rw [← h2]; assumption)
      | simp at h

theorem process_recipe_ok_inv {url : List Char} {n : Int} {env : CliEnv} {f : CliSuccess}
    (h : (process_recipe url n env).result = .ok f) :
    apiKeyMissing env = false ∧
    ∃ t parsed x scaled,
      extract_recipe_text env = .ok t ∧
      call_claude env.claudeResp1 = .ok parsed ∧
      jget parsed ("original_servings".toList) (Json.num ("4".toList)) = .ok x ∧
      call_claude env.claudeResp2 = .ok scaled ∧
      assembleSuccess url n parsed scaled = .ok f := by
  unfold process_recipe at h
  split at h
  next hk => simp at h
  next hk =>
    refine ⟨by simpa using hk, ?_⟩
    split at h
    next e heq => exact absurd h (cliHandle_not_ok _ _)
    next t heq =>
      split at h
      next e heq2 => exact absurd h (cliHandle_not_ok _ _)
      next parsed heq2 =>
        split at h
        next e heq3 => exact absurd h (cliHandle_not_ok _ _)
        next x heq3 =>
          split at h
          next e heq4 => exact absurd h (cliHandle_not_ok _ _)
          next scaled heq4 =>
            split at h
            next e heq5 => exact absurd h (cliHandle_not_ok _ _)
            next s heq5 =>
              have hfs : s = f := by simpa using h
              exact ⟨t, parsed, x, scaled, heq, heq2, heq3, heq4, hfs ▸ heq5⟩

/-! ## Claims C1, C5, C7, C8, C10 (CLI orchestrator) -/

/-- **C1.**  For every environment (hence for every value the model echoes
back), every URL and every target serving count N > 0, a successful
process_recipe result carries `scaled_servings` exactly equal to the
caller-requested N. -/
theorem claim_C1 (url : List Char) (n : Int) (env : CliEnv) (f : CliSuccess)
    (_hn : 0 < n) (h : (process_recipe url n env).result = .ok f) :
    f.scaled_servings = n := by
  obtain ⟨-, t, parsed, x, scaled, -, -, -, -, hasm⟩ := process_recipe_ok_inv h
  exact assembleSuccess_servings hasm

/-- Witness for C1: the happy-path run with target 3 (whose scale-stage
response echoes 9) still reports `scaled_servings = 3`. -/
theorem claim_C1_witness : cliSuccessHappy.scaled_servings = 3 :=
  claim_C1 ['u'] 3 cliEnvHappy cliSuccessHappy (by decide) rfl

/-- **C5, counterexample.**  The claim covers both cited run operations,
but `main.RecipeAssistant.process_recipe_url` has no try/except: a fetch
failure propagates out of it uncaught (modelled as `Except.error`) instead
of yielding a `{success: false}` result object. -/
theorem claim_C5_counterexample :
    process_recipe_url ['u'] true mainEnvFetchFail = .error ("boom".toList) := rfl

/-- **C5 (amended).**  The CLI orchestrator (recipe_cli.process_recipe)
never raises past its boundary: it is a total function into result dicts
(every exception of the modelled pipeline is a `PyExc` routed through
`cliHandle`).  Failures of extraction, parsing or scaling produce the
corresponding handler result — always a `fail` with an error string, i.e.
`success = false` — and when the result reports `success = true` it is a
full success dict.  The browser orchestrator
(main.RecipeAssistant.process_recipe_url), by contrast, has no such guard:
an extraction failure, or a scaling failure reached after the earlier
stages, propagates out of it uncaught. -/
theorem claim_C5 (url : List Char) (n : Int) (env : CliEnv)
    (url2 : List Char) (sw : Bool) (env2 : MainEnv) :
    ((apiKeyMissing env = true) →
      (process_recipe url n env).result =
        CliResult.fail ("ANTHROPIC_API_KEY not set".toList)) ∧
    (∀ e, apiKeyMissing env = false → extract_recipe_text env = .error e →
      (process_recipe url n env).result = cliHandle e) ∧
    (∀ t e, apiKeyMissing env = false → extract_recipe_text env = .ok t →
      call_claude env.claudeResp1 = .error e →
      (process_recipe url n env).result = cliHandle e) ∧
    (∀ t parsed x e, apiKeyMissing env = false → extract_recipe_text env = .ok t →
      call_claude env.claudeResp1 = .ok parsed →
      jget parsed ("original_servings".toList) (Json.num ("4".toList)) = .ok x →
      call_claude env.claudeResp2 = .error e →
      (process_recipe url n env).result = cliHandle e) ∧
    (∀ e, (cliHandle e).success = false ∧ ∃ m, cliHandle e = CliResult.fail m) ∧
    ((process_recipe url n env).result.success = true →
      ∃ f, (process_recipe url n env).result = .ok f) ∧
    (∀ m, env2.fetchText = .error m → process_recipe_url url2 sw env2 = .error m) ∧
    (∀ t ing l m, env2.fetchText = .ok t →
      jget (parse_recipe_with_claude env2.parseResp) ("ingredients".toList)
        (Json.arr []) = .ok ing →
      pyLen ing = some l →
      scale_recipe env2.scaleResp = .error m →
      process_recipe_url url2 sw env2 = .error m) := by
  refine ⟨?_, ?_, ?_, ?_, fun e => ⟨cliHandle_success e, cliHandle_fail e⟩, ?_, ?_, ?_⟩
  · intro hk
    simp only [process_recipe, hk]
    rfl
  · intro e hk hext
    simp only [process_recipe, hk, hext]
    rfl
  · intro t e hk hext hcall
    simp only [process_recipe, hk, hext, hcall]
    rfl
  · intro t parsed x e hk hext hcall hget hcall2
    simp only [process_recipe, hk, hext, hcall, hget, hcall2]
    rfl
  · intro hs
    cases hres : (process_recipe url n env).result with
    | ok f => exact ⟨f, rfl⟩
    | fail m => rw [hres] at hs; simp [CliResult.success] at hs
  · intro m hm
    unfold process_recipe_url
    rw [hm]
  · intro t ing l m h1 h2 h3 h4
    simp only [process_recipe_url, h1, h2, h3, h4]

set_option maxRecDepth 8000 in
/-- Witness for C5 (amended): a network failure during extraction surfaces
as the RequestException handler result in the CLI orchestrator, while a
fetch or scale failure propagates uncaught out of the browser
orchestrator. -/
theorem claim_C5_witness :
    ((process_recipe ['u'] 7 cliEnvFetchErr).result =
      cliHandle (.reqExc ("boom".toList))) ∧
    process_recipe_url ['u'] true mainEnvFetchFail = .error ("boom".toList) ∧
    process_recipe_url ['u'] true mainEnvScaleFail = .error ("scaleboom".toList) :=
  ⟨(claim_C5 ['u'] 7 cliEnvFetchErr ['u'] true mainEnvFetchFail).2.1
      (.reqExc ("boom".toList)) rfl rfl,
   (claim_C5 ['u'] 7 cliEnvFetchErr ['u'] true mainEnvFetchFail).2.2.2.2.2.2.1
      ("boom".toList) rfl,
   (claim_C5 ['u'] 7 cliEnvFetchErr ['u'] true mainEnvScaleFail).2.2.2.2.2.2.2
      ("page".toList) (Json.arr []) 0 ("scaleboom".toList) rfl rfl rfl rfl⟩

/-- **C7, counterexample.**  The claim quantifies over *every non-2xx*
status, but `raise_for_status` only raises for 400–599: a 304 response is
not 2xx, yet the run succeeds and performs both model calls (so the Recipe
Parser *is* invoked), instead of failing with "Failed to fetch". -/
theorem claim_C7_counterexample :
    (304 < 200 ∨ 300 ≤ 304) ∧
    (process_recipe ['u'] 7 cliEnv304).result.success = true ∧
    (process_recipe ['u'] 7 cliEnv304).claudeCalls = 2 :=
  ⟨by decide, rfl, rfl⟩

/-- **C7 (amended).**  For every URL whose fetch returns a 4xx or 5xx
status (rather than any non-2xx status), extraction raises HTTPError and
process_recipe returns success = false with an error containing
"Failed to fetch", without any model call being made. -/
theorem claim_C7_amended (url : List Char) (n : Int) (env : CliEnv)
    (r : CliHttpResponse)
    (hk : apiKeyMissing env = false) (hr : env.fetch = .ok r)
    (h4 : 400 ≤ r.status) (h6 : r.status < 600) :
    (process_recipe url n env).result.success = false ∧
    ((process_recipe url n env).result =
      CliResult.fail ("Failed to fetch recipe: HTTPError".toList) ∧
      occursB ("Failed to fetch".toList) ("Failed to fetch recipe: HTTPError".toList) = true) ∧
    (process_recipe url n env).claudeCalls = 0 := by
  have hext : extract_recipe_text env = .error (.reqExc ("HTTPError".toList)) := by
    simp only [extract_recipe_text, hr]
    rw [if_pos ⟨h4, h6⟩]
  have hrun : process_recipe url n env =
      { result := cliHandle (.reqExc ("HTTPError".toList)),
        fetchCalls := 1, claudeCalls := 0 } := by
    simp only [process_recipe, hk, hext]
    rfl
  rw [hrun]
  exact ⟨rfl, ⟨rfl, by decide⟩, rfl⟩

/-- Witness for C7 (amended): concrete 404 run makes no model call. -/
theorem claim_C7_witness : (process_recipe ['u'] 7 cliEnv404).claudeCalls = 0 :=
  (claim_C7_amended ['u'] 7 cliEnv404 { status := 404, text := [] }
    rfl rfl (by decide) (by decide)).2.2

/-- **C8, counterexample.**  The claim says the consumed
`original_servings` is never zero or negative, but a model-supplied 0 is
passed through unchecked: the success dict reports `original_servings = 0`. -/
theorem claim_C8_counterexample :
    originalServingsOf (process_recipe ['u'] 7 cliEnvZeroServ).result =
      some (Json.num ['0']) := rfl

/-- **C8 (amended).**  When the model omits `original_servings`, every
consumption site reads it through `.get(…, 4)`, so the success dict (and
the scale prompt) see exactly 4 — a positive value; a model-supplied value
is passed through unchecked instead (see the counterexample).  Likewise a
missing `ingredients` key is defaulted to an empty list at each `.get`
consumption site rather than being materialised into the parsed object. -/
theorem claim_C8_amended {url : List Char} {n : Int} {env : CliEnv}
    {kvs : List (List Char × Json)} {f : CliSuccess}
    (hp : call_claude env.claudeResp1 = .ok (Json.obj kvs))
    (hmiss : jLookup kvs ("original_servings".toList) = none)
    (h : (process_recipe url n env).result = .ok f) :
    f.original_servings = Json.num ("4".toList) ∧
    (∀ kvs2, jLookup kvs2 ("ingredients".toList) = none →
      jget (Json.obj kvs2) ("ingredients".toList) (Json.arr []) = .ok (Json.arr [])) := by
  obtain ⟨-, t, parsed, x, scaled, -, hcall, -, -, hasm⟩ := process_recipe_ok_inv h
  have hpe : parsed = Json.obj kvs := by
    rw [hp] at hcall
    simpa using hcall.symm
  have horig := assembleSuccess_orig hasm
  rw [hpe] at horig
  constructor
  · have hdef : jget (Json.obj kvs) ("original_servings".toList)
        (Json.num ("4".toList)) = .ok (Json.num ("4".toList)) := by
      show Except.ok ((jLookup kvs ("original_servings".toList)).getD (Json.num ("4".toList)))
        = Except.ok (Json.num ("4".toList))
      rw [hmiss]
      rfl
    rw [hdef] at horig
    simpa using horig.symm
  · intro kvs2 h2
    show Except.ok ((jLookup kvs2 ("ingredients".toList)).getD (Json.arr []))
      = Except.ok (Json.arr [])
    rw [h2]
    rfl

/-- Witness for C8 (amended): the no-`original_servings` run reports 4. -/
theorem claim_C8_witness : cliSuccessNoServ.original_servings = Json.num ("4".toList) :=
  (@claim_C8_amended ['u'] 7 cliEnvNoServ kvsNoServ cliSuccessNoServ rfl rfl rfl).1

/-- **C10.**  With the API key unset, process_recipe returns the
`ANTHROPIC_API_KEY not set` failure immediately: no fetch and no model
call are performed. -/
theorem claim_C10 (url : List Char) (servings : Int) (env : CliEnv)
    (h : env.apiKey = none) :
    process_recipe url servings env =
      { result := .fail ("ANTHROPIC_API_KEY not set".toList),
        fetchCalls := 0, claudeCalls := 0 } := by
  unfold process_recipe
  rw [if_pos (show apiKeyMissing env = true by simp [apiKeyMissing, h])]

/-- Witness for C10 at a concrete key-less environment. -/
theorem claim_C10_witness :
    process_recipe [] 7 cliEnvTrivial =
      { result := .fail ("ANTHROPIC_API_KEY not set".toList),
        fetchCalls := 0, claudeCalls := 0 } :=
  claim_C10 [] 7 cliEnvTrivial rfl

/-! ## Claim C9 (CLI exit codes) -/

/-- **C9, counterexample.**  `-h` is accepted as a help flag (it triggers
the usage branch), yet the exit code is `0 if '--help' in sys.argv else 1`,
so a bare `-h` invocation exits 1 — a help request with a non-zero exit. -/
theorem claim_C9_counterexample :
    (["recipe_cli.py".toList, "-h".toList].get? 1 = some ("-h".toList)) ∧
    cli_main ["recipe_cli.py".toList, "-h".toList] cliEnvTrivial = 1 :=
  ⟨rfl, rfl⟩

/-- **C9 (amended).**  On the help/usage branch (missing arguments or
`-h`/`--help` as the first argument) the exit code is 0 exactly when
`--help` appears among the arguments and 1 otherwise — so bare `-h` and
missing-argument invocations exit 1.  Off that branch, an invocation
without `--chat` prints JSON and exits 0, while with `--chat` the exit
code is 0 when `format_for_chat` completes and 1 when it raises — which
model-shaped results can cause (a non-iterable or non-dict-element
`shopping_list`, a truthy non-numeric `estimated_price`, a non-numeric
`estimated_cost`, a truthy non-dict `storage_tips`). -/
theorem claim_C9_amended (argv : List (List Char)) (env : CliEnv) :
    ((argv.length < 2 ∨ argv.get? 1 = some ("-h".toList) ∨
        argv.get? 1 = some ("--help".toList)) →
      ((argv.contains ("--help".toList) = true → cli_main argv env = 0) ∧
       (argv.contains ("--help".toList) = false → cli_main argv env = 1))) ∧
    ((¬(argv.length < 2 ∨ argv.get? 1 = some ("-h".toList) ∨
        argv.get? 1 = some ("--help".toList))) →
      ((argv.contains ("--chat".toList) = false → cli_main argv env = 0) ∧
       (argv.contains ("--chat".toList) = true →
         ((format_for_chat (process_recipe (argv.getD 1 [])
             (cliServings argv) env).result = some () →
           cli_main argv env = 0) ∧
          (format_for_chat (process_recipe (argv.getD 1 [])
             (cliServings argv) env).result = none →
           cli_main argv env = 1))))) := by
  constructor
  · intro hb
    constructor
    · intro hc
      unfold cli_main
      rw [if_pos hb, if_pos hc]
    · intro hc
      unfold cli_main
      rw [if_pos hb, if_neg (by rw [hc]; simp)]
  · intro hb
    constructor
    · intro hc
      unfold cli_main
      rw [if_neg hb, if_neg (by rw [hc]; simp)]
    · intro hc
      constructor
      · intro hs
        unfold cli_main
        rw [if_neg hb, if_pos hc, hs]
      · intro hn
        unfold cli_main
        rw [if_neg hb, if_pos hc, hn]

/-- Witness for C9 (amended): `--help` exits 0, and a `--chat` run whose
success dict carries a string `estimated_cost` exits 1. -/
theorem claim_C9_witness :
    cli_main ["recipe_cli.py".toList, "--help".toList] cliEnvTrivial = 0 ∧
    cli_main ["recipe_cli.py".toList, ['u'], "--chat".toList] cliEnvBadCost = 1 :=
  ⟨((claim_C9_amended ["recipe_cli.py".toList, "--help".toList] cliEnvTrivial).1
      (Or.inr (Or.inr rfl))).1 (by decide),
   ((((claim_C9_amended ["recipe_cli.py".toList, ['u'], "--chat".toList]
        cliEnvBadCost).2 (by decide)).2 (by decide)).2 rfl)⟩


/-! ## Claim C2 (Product Matcher) -/

theorem nameLoop_cases (ing : Ingredient) (css : List Char → Option (List Char)) :
    ∀ (sels : List (List Char)) (acc : Option (List Char)),
      nameLoop ing css acc sels = acc ∨
      ∃ sel ∈ sels, ∃ t, css sel = some t ∧ nameLoop ing css acc sels = some t := by
  intro sels
  induction sels with
  | nil => intro acc; left; rfl
  | cons sel rest ih =>
    intro acc
    cases hcss : css sel with
    | none =>
      have hstep : nameLoop ing css acc (sel :: rest) = nameLoop ing css acc rest := by
        rw [nameLoop]
        simp only [hcss]
      rw [hstep]
      rcases ih acc with h | ⟨s, hs, t, ht, hr⟩
      · left; exact h
      · right; exact ⟨s, by simp [hs], t, ht, hr⟩
    | some t =>
      have hstep : nameLoop ing css acc (sel :: rest) =
          if is_valid_product t ing = true then some t
          else nameLoop ing css (some t) rest := by
        rw [nameLoop]
        simp only [hcss]
      rw [hstep]
      by_cases hv : is_valid_product t ing = true
      · rw [if_pos hv]
        right
        exact ⟨sel, by simp, t, hcss, rfl⟩
      · rw [if_neg hv]
        rcases ih (some t) with h | ⟨s, hs, t2, ht2, hr⟩
        · right; exact ⟨sel, by simp, t, hcss, h⟩
        · right; exact ⟨s, by simp [hs], t2, ht2, hr⟩

theorem priceLoop_cases (css : List Char → Option (List Char)) :
    ∀ (sels : List (List Char)) (acc : Option (List Char)),
      priceLoop css acc sels = acc ∨
      ∃ sel ∈ sels, ∃ t, css sel = some t ∧ priceLoop css acc sels = some t := by
  intro sels
  induction sels with
  | nil => intro acc; left; rfl
  | cons sel rest ih =>
    intro acc
    cases hcss : css sel with
    | none =>
      have hstep : priceLoop css acc (sel :: rest) = priceLoop css acc rest := by
        rw [priceLoop]
        simp only [hcss]
      rw [hstep]
      rcases ih acc with h | ⟨s, hs, t, ht, hr⟩
      · left; exact h
      · right; exact ⟨s, by simp [hs], t, ht, hr⟩
    | some t =>
      have hstep : priceLoop css acc (sel :: rest) =
          if t.isEmpty = true then priceLoop css (some t) rest else some t := by
        rw [priceLoop]
        simp only [hcss]
      rw [hstep]
      by_cases he : t.isEmpty = true
      · rw [if_pos he]
        rcases ih (some t) with h | ⟨s, hs, t2, ht2, hr⟩
        · right; exact ⟨sel, by simp, t, hcss, h⟩
        · right; exact ⟨s, by simp [hs], t2, ht2, hr⟩
      · rw [if_neg he]
        right
        exact ⟨sel, by simp, t, hcss, rfl⟩

theorem anchorScan_sound :
    ∀ (xs : List (Option (List Char))) (u : List Char),
      anchorScan xs = some u → u.isEmpty = false := by
  intro xs
  induction xs with
  | nil => intro u hh; simp [anchorScan] at hh
  | cons x rest ih =>
    intro u hh
    cases x with
    | none =>
      rw [show anchorScan (none :: rest) = anchorScan rest from rfl] at hh
      exact ih u hh
    | some a =>
      unfold anchorScan at hh
      by_cases hc : (!a.isEmpty && occursB ipMarker a) = true
      · rw [if_pos hc] at hh
        have ha : a = u := by simpa using hh
        have hand := (Bool.and_eq_true _ _).mp hc
        rw [← ha]
        simpa using hand.1
      · rw [if_neg hc] at hh
        exact ih u hh

theorem primaryOrFallback_cases (b : BrowserBehavior) :
    primaryOrFallback b = none ∨
    ∃ u, primaryOrFallback b = some u ∧
      (b.primaryHref = some (some u) ∨ anchorScan b.anchors = some u) := by
  unfold primaryOrFallback
  cases hp : b.primaryHref with
  | some ho =>
    cases ho with
    | none => left; rfl
    | some u => right; exact ⟨u, rfl, Or.inl rfl⟩
  | none =>
    cases ha : b.anchorsOk with
    | false => left; simp
    | true =>
      cases hs : anchorScan b.anchors with
      | none => left; simp [hs]
      | some u => right; exact ⟨u, by simp [hs], Or.inr rfl⟩

theorem orSentinel_some_empty {t s : List Char} (h : t.isEmpty = true) :
    orSentinel (some t) s = s := by
  show (if t.isEmpty = true then s else t) = s
  rw [if_pos h]

theorem orSentinel_some_ne {t s : List Char} (h : t.isEmpty = false) :
    orSentinel (some t) s = t := by
  show (if t.isEmpty = true then s else t) = t
  rw [h]
  simp

/-- **C2, counterexample.**  `self._ensure_browser()` runs *before* the
`try` block of `search_walmart_product`: with no driver yet and a raising
browser launch, the exception escapes the component instead of producing a
sentinel-filled `ProductMatch` — so "never raises, for any behaviour of
the browser layer" is false as stated. -/
theorem claim_C2_counterexample :
    search_walmart_product ingGarlic browserDead = Except.error () := rfl

/-- **C2 (amended).**  Provided browser initialisation does not raise (a
driver already exists, or the launch succeeds), `search_walmart_product`
never raises, for any ingredient dict and any selector-layer behaviour: it
returns a `ProductMatch` whose `product.name` is either an extracted
non-empty selector text or exactly "Search failed"/"Name not found", whose
`product.url` is either an extracted non-empty href or exactly
"URL not found", and whose `product.price` is either an extracted
non-empty selector text or exactly "Price not found". -/
theorem claim_C2_amended (ing : Ingredient) (b : BrowserBehavior)
    (h : b.driverAlready = true ∨ b.launchOk = true) :
    (∃ m, search_walmart_product ing b = Except.ok m) ∧
    (∀ m, search_walmart_product ing b = Except.ok m →
      (m.product.name = "Search failed".toList ∨
        m.product.name = "Name not found".toList ∨
        (m.product.name ≠ [] ∧
          name_selectors.any (fun sel => b.css sel == some m.product.name) = true)) ∧
      (m.product.url = "URL not found".toList ∨
        (m.product.url ≠ [] ∧
          ((b.primaryHref == some (some m.product.url)) ||
            (anchorScan b.anchors == some m.product.url)) = true)) ∧
      (m.product.price = "Price not found".toList ∨
        (m.product.price ≠ [] ∧
          price_selectors.any (fun sel => b.css sel == some m.product.price) = true))) := by
  have hinit : (!b.driverAlready && !b.launchOk) = false := by
    rcases h with h | h <;> simp [h]
  unfold search_walmart_product
  rw [if_neg (by rw [hinit]; simp)]
  by_cases hnav : (!b.navOk || !b.containerFound) = true
  · rw [if_pos hnav]
    refine ⟨⟨_, rfl⟩, ?_⟩
    intro m hm
    have hm' : m = searchFailedMatch ing := by simpa using hm.symm
    subst hm'
    exact ⟨Or.inl rfl, Or.inl rfl, Or.inl rfl⟩
  · rw [if_neg hnav]
    refine ⟨⟨_, rfl⟩, ?_⟩
    intro m hm
    have hm' : m =
        { ingredient := ing,
          product := { name := orSentinel (nameLoop ing b.css none name_selectors)
                         ("Name not found".toList),
                       url := orSentinel (primaryOrFallback b) ("URL not found".toList),
                       price := orSentinel (priceLoop b.css none price_selectors)
                         ("Price not found".toList),
                       quantity_needed := quantityNeeded ing } } := by
      simpa using hm.symm
    subst hm'
    refine ⟨?_, ?_, ?_⟩
    · rcases nameLoop_cases ing b.css name_selectors none with hres | ⟨sel, hsel, t, hct, hres⟩
      · rw [hres]
        exact Or.inr (Or.inl rfl)
      · rw [hres]
        by_cases he : t.isEmpty = true
        · rw [orSentinel_some_empty he]
          exact Or.inr (Or.inl rfl)
        · have he' : t.isEmpty = false := by simpa using he
          rw [orSentinel_some_ne he']
          refine Or.inr (Or.inr ⟨?_, ?_⟩)
          · intro hnil
            rw [show t = [] from hnil] at he'
            simp at he'
          · rw [List.any_eq_true]
            exact ⟨sel, hsel, by simp [hct]⟩
    · rcases primaryOrFallback_cases b with hres | ⟨u, hres, hor⟩
      · rw [hres]
        exact Or.inl rfl
      · rw [hres]
        by_cases he : u.isEmpty = true
        · rw [orSentinel_some_empty he]
          exact Or.inl rfl
        · have he' : u.isEmpty = false := by simpa using he
          rw [orSentinel_some_ne he']
          refine Or.inr ⟨?_, ?_⟩
          · intro hnil
            rw [show u = [] from hnil] at he'
            simp at he'
          · rcases hor with hor | hor <;> simp [hor]
    · rcases priceLoop_cases b.css price_selectors none with hres | ⟨sel, hsel, t, hct, hres⟩
      · rw [hres]
        exact Or.inl rfl
      · rw [hres]
        by_cases he : t.isEmpty = true
        · rw [orSentinel_some_empty he]
          exact Or.inl rfl
        · have he' : t.isEmpty = false := by simpa using he
          rw [orSentinel_some_ne he']
          refine Or.inr ⟨?_, ?_⟩
          · intro hnil
            rw [show t = [] from hnil] at he'
            simp at he'
          · rw [List.any_eq_true]
            exact ⟨sel, hsel, by simp [hct]⟩

/-- Witness for C2: a live browser on which every extraction fails yields
the `ok` result with all three sentinel fields. -/
theorem claim_C2_witness :
    (pmLive.product.name = "Search failed".toList ∨
      pmLive.product.name = "Name not found".toList ∨
      (pmLive.product.name ≠ [] ∧
        name_selectors.any (fun sel => browserLive.css sel == some pmLive.product.name) = true)) ∧
    (pmLive.product.url = "URL not found".toList ∨
      (pmLive.product.url ≠ [] ∧
        ((browserLive.primaryHref == some (some pmLive.product.url)) ||
          (anchorScan browserLive.anchors == some pmLive.product.url)) = true)) ∧
    (pmLive.product.price = "Price not found".toList ∨
      (pmLive.product.price ≠ [] ∧
        price_selectors.any (fun sel => browserLive.css sel == some pmLive.product.price) = true)) :=
  (claim_C2_amended ingGarlic browserLive (Or.inl rfl)).2 pmLive rfl

/-! ## Claim C6 (validator) -/

theorem is_valid_product_eq (pname : List Char) (ing : Ingredient) :
    is_valid_product pname ing =
      ((match invalid_keywords (pyLower (ing.category.getD [])) with
        | some kws => !(kws.any (fun kw => occursB kw (pyLower pname)))
        | none => true) &&
       ((pyLower (ing.name.getD [])).isEmpty ||
        occursB (pyLower (ing.name.getD [])) (pyLower pname))) := by
  simp only [is_valid_product]
  cases invalid_keywords (pyLower (ing.category.getD [])) with
  | none =>
    cases h1 : (pyLower (ing.name.getD [])).isEmpty <;>
      cases h2 : occursB (pyLower (ing.name.getD [])) (pyLower pname) <;>
        simp [h1, h2]
  | some kws =>
    cases h0 : kws.any (fun kw => occursB kw (pyLower pname)) <;>
      cases h1 : (pyLower (ing.name.getD [])).isEmpty <;>
        cases h2 : occursB (pyLower (ing.name.getD [])) (pyLower pname) <;>
          simp [h0, h1, h2]

/-- **C6.**  `is_valid_product` returns true iff (i) no keyword of the
ingredient category's denylist (produce: seeds/plant/garden/growing; dairy
and meat have their own lists; other categories have none) occurs in the
case-folded candidate name, and (ii) the ingredient name is empty or its
case-folded form occurs as a substring of the case-folded candidate name.
In particular a produce candidate containing "seeds" is always rejected,
and name "garlic" against candidate "Fresh Garlic Cloves 3ct" is
accepted. -/
theorem claim_C6 :
    (∀ (pname : List Char) (ing : Ingredient),
      is_valid_product pname ing = true ↔
        ((∀ kws, invalid_keywords (pyLower (ing.category.getD [])) = some kws →
            ∀ kw ∈ kws, occursB kw (pyLower pname) = false) ∧
         (pyLower (ing.name.getD []) = [] ∨
            occursB (pyLower (ing.name.getD [])) (pyLower pname) = true))) ∧
    (∀ (pname : List Char) (ing : Ingredient),
      pyLower (ing.category.getD []) = "produce".toList →
      occursB ("seeds".toList) (pyLower pname) = true →
      is_valid_product pname ing = false) ∧
    is_valid_product ("Fresh Garlic Cloves 3ct".toList) ingGarlic = true := by
  refine ⟨?_, ?_, by decide⟩
  · intro pname ing
    rw [is_valid_product_eq, Bool.and_eq_true]
    constructor
    · rintro ⟨hkp, hname⟩
      constructor
      · intro kws hkws kw hkw
        rw [hkws] at hkp
        have hfalse : kws.any (fun kw => occursB kw (pyLower pname)) = false := by
          simpa using hkp
        have hall := List.any_eq_false.mp hfalse
        simpa using hall kw hkw
      · rcases (Bool.or_eq_true _ _).mp hname with he | ho
        · exact Or.inl (List.isEmpty_iff.mp he)
        · exact Or.inr ho
    · rintro ⟨h1, h2⟩
      refine ⟨?_, ?_⟩
      · cases hinv : invalid_keywords (pyLower (ing.category.getD [])) with
        | none => rfl
        | some kws =>
          have hall := h1 kws hinv
          have hfalse : kws.any (fun kw => occursB kw (pyLower pname)) = false := by
            rw [List.any_eq_false]
            intro kw hkw
            simp [hall kw hkw]
          show (!(kws.any fun kw => occursB kw (pyLower pname))) = true
          rw [hfalse]
          rfl
      · rcases h2 with h2 | h2
        · have : (pyLower (ing.name.getD [])).isEmpty = true := by simp [h2]
          rw [this]
          rfl
        · rw [h2]
          simp
  · intro pname ing hcat hsd
    rw [is_valid_product_eq, hcat]
    have hinv : invalid_keywords ("produce".toList) =
        some ["seeds".toList, "plant".toList, "garden".toList, "growing".toList] := rfl
    rw [hinv]
    have hany : (["seeds".toList, "plant".toList, "garden".toList,
        "growing".toList].any (fun kw => occursB kw (pyLower pname))) = true :=
      List.any_eq_true.mpr ⟨"seeds".toList, by simp, hsd⟩
    show ((!(["seeds".toList, "plant".toList, "garden".toList, "growing".toList].any
        (fun kw => occursB kw (pyLower pname)))) &&
      ((pyLower (ing.name.getD [])).isEmpty ||
        occursB (pyLower (ing.name.getD [])) (pyLower pname))) = false
    rw [hany]
    rfl

/-- Witness for C6: the seeds rule applied to a concrete produce candidate. -/
theorem claim_C6_witness :
    is_valid_product ("Garlic seeds for planting".toList) ingGarlic = false :=
  claim_C6.2.1 ("Garlic seeds for planting".toList) ingGarlic (by decide) (by decide)

/-! ## Claim C4 (matching phase of process_recipe_url) -/

theorem matchLoop_length (bs : Nat → BrowserBehavior) :
    ∀ (elems : List Json) (i : Nat) (ps : List ProductMatch),
      matchLoop bs i elems = .ok ps → ps.length = elems.length := by
  intro elems
  induction elems with
  | nil =>
    intro i ps h
    have : ([] : List ProductMatch) = ps := by simpa [matchLoop] using h
    rw [← this]
    rfl
  | cons e rest ih =>
    intro i ps h
    unfold matchLoop at h
    split at h
    next heq => simp at h
    next ing heq =>
      split at h
      next u heq2 => simp at h
      next m heq2 =>
        split at h
        next ms heq3 =>
          have hms : m :: ms = ps := by simpa using h
          rw [← hms]
          simp [ih (i + 1) ms heq3]
        next err heq3 => simp at h

set_option maxRecDepth 8000 in
/-- **C4, counterexample.**  The claim says the matcher runs once per item
of the scaled recipe's `shopping_list` and that `walmart_products` has the
same length as `shopping_list`.  The code iterates `scaled_ingredients`
instead: with one scaled ingredient and an empty shopping list, the run
produces one product match while the shopping list is empty. -/
theorem claim_C4_counterexample :
    walmartCount (process_recipe_url ['u'] true mainEnvC4) = some 1 ∧
    shoppingCount (process_recipe_url ['u'] true mainEnvC4) = some 0 ∧
    (1 : Nat) ≠ 0 :=
  ⟨rfl, rfl, by decide⟩

/-- **C4 (amended).**  When the matching phase runs to completion, the
orchestrator performs exactly one matcher invocation per element of the
scaled recipe's `scaled_ingredients` list (not `shopping_list`), a failed
match never aborts the remaining items (any selector-layer behaviour still
contributes one, possibly sentinel-filled, `ProductMatch`), and
`walmart_products` has exactly one entry per `scaled_ingredients` element. -/
theorem claim_C4_amended (url : List Char) (env : MainEnv) (r : MainResult)
    (si : Json) (elems : List Json)
    (h : process_recipe_url url true env = .ok r)
    (hsi : jget r.scaled_recipe ("scaled_ingredients".toList) (Json.arr []) = .ok si)
    (hiter : iterElems si = some elems) :
    r.walmart_products.length = elems.length := by
  unfold process_recipe_url at h
  split at h
  next m heq0 => simp at h
  next recipeText heq0 =>
    split at h
    next e heq1 => simp at h
    next ingVal heq1 =>
      split at h
      next heq2 => simp at h
      next k heq2 =>
        split at h
        next m heq3 => simp at h
        next scaled heq3 =>
          split at h
          next e heq4 => simp at h
          next slVal heq4 =>
            split at h
            next heq5 => simp at h
            next l5 heq5 =>
              split at h
              next e heq6 => simp at h
              next stVal heq6 =>
                split at h
                next kvsSt =>
                  split at h
                  next e heq7 => simp at h
                  next costVal heq7 =>
                    split at h
                    next hfmt =>
                      rw [if_pos (rfl : true = true)] at h
                      split at h
                      next hlaunch =>
                        split at h
                        next e heq8 => simp at h
                        next siVal heq8 =>
                          split at h
                          next heq9 => simp at h
                          next elems0 heq9 =>
                            split at h
                            next m heq10 => simp at h
                            next products heq10 =>
                              injection h with h2
                              have hwp : r.walmart_products = products := by
                                rw [← h2]
                              have hsr : r.scaled_recipe = scaled := by
                                rw [← h2]
                              rw [hsr, heq8] at hsi
                              have hsc : si = siVal := by
                                injection hsi with h3
                                exact h3.symm
                              rw [hsc, heq9] at hiter
                              have hel : elems = elems0 := by
                                injection hiter with h4
                                exact h4.symm
                              rw [hwp, hel]
                              exact matchLoop_length env.matchBehavior elems0 0
                                products heq10
                      next hlaunch => simp at h
                    next hfmt => simp at h
                next => simp at h

set_option maxRecDepth 8000 in
/-- Witness for C4 (amended): an empty `scaled_ingredients` list yields a
run with an empty `walmart_products` list. -/
theorem claim_C4_witness :
    mainResultC4W.walmart_products.length = ([] : List Json).length :=
  claim_C4_amended ['u'] mainEnvC4W mainResultC4W (Json.arr []) [] rfl rfl rfl

end ThoughtToTable
